import Mathlib

/-!
Shallow embedding of the UNO multiplayer game engine
(src/src/types/game.ts, src/src/services/RuleValidator.ts,
src/src/services/StateManager.ts, src/src/services/gameService.ts and the
redaction helper of src/src/app/test.tsx), together with proofs settling the
frozen claims about it.

Modelling conventions:
- TypeScript throw statements become an explicit `Except GameError` result;
  each `GameError` constructor records in its doc comment the exact source
  message it stands for.
- Calls to Math.random are modelled as explicit inputs: the Fisher-Yates
  shuffle takes a list of random draws (one per loop iteration, reduced
  modulo the live range exactly as Math.floor(Math.random() * (i + 1))
  produces a value in 0..i), and the random first-player pick of startGame
  takes a seed reduced modulo the player count.
- Wall-clock fields (joinedAt, timestamps, timer) and cosmetic fields
  (avatarId, spectators, chat, per-player lastAction metadata, id/roomCode
  strings of the aggregate) carry no game logic and are omitted.
- Card ids are stringified counters in the source (`(id++).toString()`);
  they are modelled as the counter value itself.
-/

/-- Card colors from types/game.ts; `wildTemp` models the temporary color
value named "wild" in the source union. -/
inductive CardColor
  | red | blue | green | yellow | black | wildTemp
deriving DecidableEq, Repr

/-- Card kinds from types/game.ts. -/
inductive CardType
  | number | skip | reverse | draw2 | wild | wild4
deriving DecidableEq, Repr

/-- Game status values from types/game.ts. -/
inductive GameStatus
  | waiting | playing | paused | finished
deriving DecidableEq, Repr

/-- Action kinds from types/game.ts. -/
inductive ActionType
  | play | draw | skip | challenge | colorChange | unoCall | penalty
  | join | leave | timeout
deriving DecidableEq, Repr

/-- Card record from types/game.ts: id, color, kind, optional numeric value,
and the point value fixed at creation. -/
structure Card where
  id : Nat
  color : CardColor
  type : CardType
  value : Option Nat := none
  points : Nat
deriving DecidableEq, Repr

/-- Per-player statistics from types/game.ts. -/
structure PlayerStats where
  gamesPlayed : Nat
  gamesWon : Nat
  cardsPlayed : Nat
  specialCardsPlayed : Nat
  totalScore : Int
deriving DecidableEq, Repr

/-- Player record from types/game.ts (wall-clock and avatar fields omitted). -/
structure Player where
  id : String
  username : String
  cards : List Card
  isHost : Bool
  isCurrentTurn : Bool
  isConnected : Bool
  isReady : Bool
  score : Int
  roundScore : Int
  hasCalledUno : Bool
  stats : PlayerStats
deriving DecidableEq, Repr

/-- Game settings from types/game.ts. -/
structure GameSettings where
  roomName : String
  maxPlayers : Nat
  minPlayers : Nat
  timePerTurn : Nat
  isPrivate : Bool
  scoreLimit : Nat
  stackDrawCards : Bool
  forcePlay : Bool
  jumpIn : Bool
  drawUntilMatch : Bool
  allowChallenges : Bool
  strictUno : Bool
  sevenZero : Bool
  noBluffing : Bool
  passAfterDraw : Bool
  drawCardLimit : Nat
deriving DecidableEq, Repr

/-- Action record from types/game.ts (timestamp omitted). -/
structure GameAction where
  type : ActionType
  player : String
  card : Option Card := none
  newColor : Option CardColor := none
deriving DecidableEq, Repr

/-- Challenge record from types/game.ts (timestamp omitted). -/
structure Challenge where
  challenger : String
  challenged : String
  card : Card
  isValid : Bool
deriving DecidableEq, Repr

/-- Round record from types/game.ts (start and end times omitted). -/
structure GameRound where
  roundNumber : Nat
  winner : Option String := none
  scores : List (String × Nat) := []
  firstPlayer : String
deriving DecidableEq, Repr

/-- The central GameState aggregate from types/game.ts (wall-clock fields,
spectators and the id/roomCode strings omitted). -/
structure GameState where
  players : List Player
  currentPlayerIndex : Nat
  direction : Int
  deck : List Card
  discardPile : List Card
  currentColor : CardColor
  lastPlayedCard : Option Card := none
  gameStatus : GameStatus
  winner : Option Player := none
  currentRound : Nat
  rounds : List GameRound
  lastAction : Option GameAction := none
  actionHistory : List GameAction
  challengePending : Option Challenge := none
  mustCallUno : Option String := none
  drawPileCount : Nat
  pendingCardsToDraw : Nat
  settings : GameSettings
deriving DecidableEq, Repr

/-- Failure reasons; each constructor stands for one thrown Error of the
source, whose message is given in the doc comment. -/
inductive GameError
  /-- "Cannot join game in progress" -/
  | gameInProgress
  /-- "Game is full" -/
  | roomFull
  /-- "Player already in game" -/
  | duplicatePlayer
  /-- "Player not found" -/
  | playerNotFound
  /-- "Game already started" -/
  | gameAlreadyStarted
  /-- "Only host can start game" -/
  | notHost
  /-- "Not enough players are ready" -/
  | notEnoughReady
  /-- "Not player|s turn" -/
  | notYourTurn
  /-- "Card not found in player hand" -/
  | cardNotInHand
  /-- "Invalid card play" -/
  | invalidPlay
  /-- "Cannot play Wild+4 when you have a matching color card" -/
  | wild4Blocked
  /-- "Must choose a color for wild card" -/
  | colorRequired
  /-- "Seven-zero rule not implemented yet" -/
  | sevenZeroUnimplemented
  /-- "Jump-in rule not implemented yet" -/
  | jumpInUnimplemented
  /-- "Draw until match rule is not enabled" -/
  | drawUntilMatchDisabled
  /-- "Player already has a playable card" -/
  | alreadyHasPlayable
  /-- "Challenges are not enabled in this game" -/
  | challengesDisabled
  /-- "Cannot challenge: last play was not a wild+4" -/
  | noWild4ToChallenge
  /-- "Only the affected player can challenge" -/
  | wrongChallenger
  /-- "Cannot challenge this player" -/
  | wrongChallenged
  /-- "Exactly one player must have current turn" (GameStateManager.validateState) -/
  | invalidTurnCount
  /-- "Game must have a host" (GameStateManager.validateState) -/
  | noHost
  /-- a TypeError raised by JavaScript on a property read of undefined -/
  | internalUndefined
deriving DecidableEq, Repr

/-- Checks whether a card is a wild card (isWildCard in types/game.ts). -/
def isWildCard (card : Card) : Bool :=
  card.type = CardType.wild || card.type = CardType.wild4

/-- Checks whether a card is an action card (isActionCard in types/game.ts). -/
def isActionCard (card : Card) : Bool :=
  card.type ≠ CardType.number

/-- Checks whether a card is a draw card (isDrawCard in types/game.ts). -/
def isDrawCard (card : Card) : Bool :=
  card.type = CardType.draw2 || card.type = CardType.wild4

/-- Point value of a card (getCardPoints in types/game.ts); for number cards
`card.value || 0` evaluates to 0 when the value is missing. -/
def getCardPoints (card : Card) : Nat :=
  if card.type = CardType.number then card.value.getD 0
  else if card.type = CardType.skip || card.type = CardType.reverse
      || card.type = CardType.draw2 then 20
  else 50

/-- Play-legality predicate canPlayOnTop from types/game.ts: this is the
predicate GameService.playCard consults. -/
def canPlayOnTop (cardToPlay : Card) (topCard : Card) (currentColor : CardColor)
    (settings : GameSettings) : Bool :=
  if isWildCard cardToPlay then
    if settings.noBluffing && cardToPlay.type = CardType.wild4 then false
    else true
  else if cardToPlay.color = currentColor then true
  else if cardToPlay.type = CardType.number && topCard.type = CardType.number
      && cardToPlay.value = topCard.value then true
  else if cardToPlay.type ≠ CardType.number && cardToPlay.type = topCard.type then true
  else false

/-- Play-legality predicate GameRuleValidator.canPlayCard from
RuleValidator.ts. -/
def canPlayCard (card : Card) (topCard : Card) (currentColor : CardColor)
    (_settings : GameSettings) : Bool :=
  if card.type = CardType.wild || card.type = CardType.wild4 then true
  else if card.color = currentColor then true
  else if card.type = CardType.number && topCard.type = CardType.number then
    card.value == topCard.value
  else
    card.type == topCard.type

/-- GameRuleValidator.canStartGame from RuleValidator.ts. -/
def canStartGame (state : GameState) : Bool :=
  if state.players.length < state.settings.minPlayers then false
  else (state.players.filter (·.isReady)).length ≥ state.settings.minPlayers

/-- One color block of createNewDeck: one 0, two each of 1 to 9, then two
skip, two reverse and two draw2 cards, with ids counted from `start`. -/
def colorBlock (color : CardColor) (start : Nat) : List Card :=
  ({ id := start, color := color, type := CardType.number, value := some 0,
     points := 0 } :: (List.range 9).flatMap (fun k =>
      [ { id := start + 1 + 2 * k, color := color, type := CardType.number,
          value := some (k + 1), points := k + 1 },
        { id := start + 2 + 2 * k, color := color, type := CardType.number,
          value := some (k + 1), points := k + 1 } ]))
  ++ [ { id := start + 19, color := color, type := CardType.skip, points := 20 },
       { id := start + 20, color := color, type := CardType.skip, points := 20 },
       { id := start + 21, color := color, type := CardType.reverse, points := 20 },
       { id := start + 22, color := color, type := CardType.reverse, points := 20 },
       { id := start + 23, color := color, type := CardType.draw2, points := 20 },
       { id := start + 24, color := color, type := CardType.draw2, points := 20 } ]

/-- Full 108-card deck built by createNewDeck in types/game.ts: the four
color blocks in source order followed by four wild and four wild-draw-four
cards with alternating ids. -/
def createNewDeck : List Card :=
  colorBlock CardColor.red 0 ++ colorBlock CardColor.blue 25
  ++ colorBlock CardColor.green 50 ++ colorBlock CardColor.yellow 75
  ++ (List.range 4).flatMap (fun k =>
    [ { id := 100 + 2 * k, color := CardColor.black, type := CardType.wild,
        points := 50 },
      { id := 101 + 2 * k, color := CardColor.black, type := CardType.wild4,
        points := 50 } ])

/-- Default settings from getDefaultGameSettings in types/game.ts. -/
def getDefaultGameSettings : GameSettings :=
  { roomName := "UNO Game", maxPlayers := 10, minPlayers := 2,
    timePerTurn := 30, isPrivate := false, scoreLimit := 500,
    stackDrawCards := true, forcePlay := false, jumpIn := false,
    drawUntilMatch := false, allowChallenges := true, strictUno := true,
    sevenZero := false, noBluffing := false, passAfterDraw := true,
    drawCardLimit := 3 }

/-- Fresh statistics used for newly created players across the source. -/
def freshStats : PlayerStats :=
  { gamesPlayed := 0, gamesWon := 0, cardsPlayed := 0,
    specialCardsPlayed := 0, totalScore := 0 }

/-- Fresh player record as built by createInitialGameState, createGame and
addPlayer in gameService.ts. -/
def freshPlayer (playerId playerName : String) (isHost : Bool) : Player :=
  { id := playerId, username := playerName, cards := [], isHost := isHost,
    isCurrentTurn := false, isConnected := true, isReady := false,
    score := 0, roundScore := 0, hasCalledUno := false, stats := freshStats }

/-- Initial waiting state from createInitialGameState in types/game.ts. -/
def createInitialGameState (hostId hostName : String) : GameState :=
  { players := [freshPlayer hostId hostName true],
    currentPlayerIndex := 0, direction := 1, deck := [], discardPile := [],
    currentColor := CardColor.red, gameStatus := GameStatus.waiting,
    currentRound := 0, rounds := [], settings := getDefaultGameSettings,
    actionHistory := [], drawPileCount := 0, pendingCardsToDraw := 0 }

instance : Inhabited Card :=
  ⟨{ id := 0, color := CardColor.red, type := CardType.number,
     value := some 0, points := 0 }⟩

instance : Inhabited Player := ⟨freshPlayer "" "" false⟩

instance : Inhabited GameState := ⟨createInitialGameState "" ""⟩

instance [DecidableEq e] [DecidableEq a] : DecidableEq (Except e a) := fun x y =>
  match x, y with
  | Except.ok u, Except.ok v =>
    if h : u = v then isTrue (by rw [h]) else isFalse (by simp [h])
  | Except.error u, Except.error v =>
    if h : u = v then isTrue (by rw [h]) else isFalse (by simp [h])
  | Except.ok _, Except.error _ => isFalse (by simp)
  | Except.error _, Except.ok _ => isFalse (by simp)

/-- Swap of two list positions, the effect of the destructuring assignment
inside the Fisher-Yates loop of shuffleArray; out-of-range indices leave the
list unchanged (they cannot occur in the source loop). -/
def listSwap (l : List α) (i j : Nat) : List α :=
  match l.get? i, l.get? j with
  | some a, some b => (l.set i b).set j a
  | _, _ => l

/-- Fisher-Yates loop of shuffleArray in types/game.ts, iterating i from
`i` down to 1 and swapping position i with a random position j in 0..i; the
random draws are supplied in `seeds`, reduced modulo i + 1 like
Math.floor(Math.random() * (i + 1)). An exhausted seed list stops early
(the source always has randomness available). -/
def fisherYatesAux (seeds : List Nat) (l : List α) : Nat → List α
  | 0 => l
  | i + 1 =>
    match seeds with
    | [] => l
    | s :: rest => fisherYatesAux rest (listSwap l (i + 1) (s % (i + 2))) i

/-- shuffleArray from types/game.ts with its stream of random draws made an
explicit argument. -/
def shuffleArray (seeds : List Nat) (l : List α) : List α :=
  fisherYatesAux seeds l (l.length - 1)

/-- Index arithmetic `(idx + direction + playerCount) % playerCount` used by
getNextPlayerIndex in gameService.ts. -/
def stepIdx (n : Nat) (direction : Int) (idx : Nat) : Nat :=
  (((idx : Int) + direction + (n : Int)) % (n : Int)).toNat

/-- While loop of getNextPlayerIndex: keep stepping while the player at the
probe index is disconnected, stopping when the probe returns to `current`.
The loop steps by plus or minus one modulo the player count, so it returns
to `current` after at most playerCount iterations; the fuel argument is set
to playerCount + 1 by the caller and never runs out. -/
def findConnectedIdx (players : List Player) (direction : Int) (current : Nat) :
    Nat → Nat → Nat
  | _, 0 => current
  | idx, fuel + 1 =>
    if (players.getD idx default).isConnected then idx
    else
      let nx := stepIdx players.length direction idx
      if nx = current then nx
      else findConnectedIdx players direction current nx fuel

/-- getNextPlayerIndex from gameService.ts, started from an explicit index
(the source takes the current player index by default). -/
def getNextPlayerIndexFrom (state : GameState) (current : Nat) : Nat :=
  let n := state.players.length
  findConnectedIdx state.players state.direction current
    (stepIdx n state.direction current) (n + 1)

/-- getNextPlayerIndex from gameService.ts with its default start index. -/
def getNextPlayerIndex (state : GameState) : Nat :=
  getNextPlayerIndexFrom state state.currentPlayerIndex

/-- Map over a list together with element indices, as the source uses
`array.map((x, idx) => ...)`. -/
def mapIdxFrom (f : Nat → α → β) : Nat → List α → List β
  | _, [] => []
  | i, a :: as => f i a :: mapIdxFrom f (i + 1) as

/-- Map with indices starting at 0. -/
def mapIdx0 (f : Nat → α → β) (l : List α) : List β :=
  mapIdxFrom f 0 l

/-- GameStateManager.validateState from StateManager.ts: every state passed
to the GameService constructor goes through this check (the id and roomCode
presence checks concern fields not modelled here and always pass for states
built by the service). -/
def validateState (state : GameState) : Except GameError GameState :=
  if state.gameStatus = GameStatus.playing
      ∧ state.players.countP (·.isCurrentTurn) ≠ 1 then
    Except.error GameError.invalidTurnCount
  else if state.players.length > 0 ∧ ¬ state.players.any (·.isHost) then
    Except.error GameError.noHost
  else
    Except.ok state

/-- Pure part of GameService.nextTurn: pick the next player index, set
isCurrentTurn on exactly that index and store the index (timer bookkeeping
omitted). The caller wraps the result in the validating constructor. -/
def nextTurnPure (state : GameState) : GameState :=
  let nextPlayerIndex := getNextPlayerIndex state
  { state with
    players := mapIdx0
      (fun idx p => { p with isCurrentTurn := idx = nextPlayerIndex })
      state.players,
    currentPlayerIndex := nextPlayerIndex }

/-- GameService.nextTurn: compute the turn change and validate the result
through the GameService constructor. -/
def nextTurn (state : GameState) : Except GameError GameState :=
  validateState (nextTurnPure state)

/-- GameService.createGame from gameService.ts: build the initial waiting
state with the given settings and a single host player, validated by the
constructor. -/
def createGame (hostId hostName : String) (settings : GameSettings) :
    Except GameError GameState :=
  validateState { createInitialGameState hostId hostName with settings := settings }

/-- GameService.addPlayer from gameService.ts. -/
def addPlayer (state : GameState) (playerId playerName : String) :
    Except GameError GameState :=
  if state.gameStatus ≠ GameStatus.waiting then
    Except.error GameError.gameInProgress
  else if state.players.length ≥ state.settings.maxPlayers then
    Except.error GameError.roomFull
  else if state.players.any (·.id = playerId) then
    Except.error GameError.duplicatePlayer
  else
    validateState { state with
      players := state.players ++ [freshPlayer playerId playerName false] }

/-- GameService.removePlayer from gameService.ts: while playing, mark the
player disconnected (advancing the turn when it was theirs); otherwise
remove the player outright and give the host role to the first remaining
player when the host left. -/
def removePlayer (state : GameState) (playerId : String) :
    Except GameError GameState :=
  match state.players.findIdx? (·.id = playerId) with
  | none => Except.error GameError.playerNotFound
  | some playerIndex =>
    if state.gameStatus = GameStatus.playing then
      let newState := { state with
        players := state.players.map
          (fun p => if p.id = playerId then { p with isConnected := false } else p) }
      if (state.players.getD playerIndex default).isCurrentTurn then
        (validateState newState).bind nextTurn
      else
        validateState newState
    else
      let wasHost := (state.players.getD playerIndex default).isHost
      let removed := state.players.filter (·.id ≠ playerId)
      let newPlayers :=
        if wasHost ∧ removed.length > 0 then
          mapIdx0 (fun idx p => if idx = 0 then { p with isHost := true } else p)
            removed
        else removed
      validateState { state with players := newPlayers }

/-- GameService.setPlayerReady from gameService.ts. -/
def setPlayerReady (state : GameState) (playerId : String) (isReady : Bool) :
    Except GameError GameState :=
  if state.gameStatus ≠ GameStatus.waiting then
    Except.error GameError.gameAlreadyStarted
  else if state.players.findIdx? (·.id = playerId) = none then
    Except.error GameError.playerNotFound
  else
    validateState { state with
      players := state.players.map
        (fun p => if p.id = playerId then { p with isReady := isReady } else p) }

/-- Sequential 7-card deal of startGame: the source maps over the players
while splicing 7 cards off the shared deck per iteration, so player k gets
cards 7k..7k+6; returns the dealt players and the remaining deck. -/
def dealHands : List Player → List Card → List Player × List Card
  | [], deck => ([], deck)
  | p :: ps, deck =>
    let rest := dealHands ps (deck.drop 7)
    ({ p with
        cards := deck.take 7, isReady := true, isCurrentTurn := false,
        hasCalledUno := false } :: rest.1, rest.2)

/-- GameService.startGame from gameService.ts. Randomness is explicit:
`seeds1` drives the initial shuffle, `seeds2` the re-shuffle taken when no
number card remains for the starting discard, and `firstSeed` the uniform
first-player pick (Math.floor(Math.random() * players.length), modelled as
firstSeed % players.length). -/
def startGame (state : GameState) (playerId : String)
    (seeds1 seeds2 : List Nat) (firstSeed : Nat) : Except GameError GameState :=
  match state.players.find? (·.id = playerId) with
  | none => Except.error GameError.notHost
  | some player =>
    if ¬ player.isHost then Except.error GameError.notHost
    else if (state.players.filter (·.isReady)).length
        < state.settings.minPlayers - 1 then
      Except.error GameError.notEnoughReady
    else
      let deck0 := shuffleArray seeds1 createNewDeck
      let dealt := dealHands state.players deck0
      let deck1 := dealt.2
      let pick :=
        match deck1.findIdx? (·.type = CardType.number) with
        | some idx => (deck1, idx)
        | none => (shuffleArray seeds2 deck1, 0)
      match pick.1.get? pick.2 with
      | none => Except.error GameError.internalUndefined
      | some startingCard =>
        let deck2 := pick.1.eraseIdx pick.2
        let firstPlayerIndex := firstSeed % state.players.length
        let players2 := mapIdx0
          (fun idx p =>
            if idx = firstPlayerIndex then { p with isCurrentTurn := true } else p)
          dealt.1
        let newRound : GameRound :=
          { roundNumber := 1, scores := [],
            firstPlayer := (players2.getD firstPlayerIndex default).id }
        validateState { state with
          players := players2,
          currentPlayerIndex := firstPlayerIndex,
          direction := 1,
          deck := deck2,
          discardPile := [startingCard],
          currentColor := startingCard.color,
          lastPlayedCard := some startingCard,
          gameStatus := GameStatus.playing,
          currentRound := 1,
          rounds := [newRound],
          drawPileCount := deck2.length,
          pendingCardsToDraw := 0,
          actionHistory := [] }

/-- Sum of the point values of the cards held by a player, as computed by
the round-scoring reduce inside playCard. -/
def handPoints (p : Player) : Nat :=
  (p.cards.map (·.points)).sum

/-- Insertion into a JavaScript object used as a Record<string, number>:
a later write to an existing key overwrites in place, a new key is appended
(Object.values later reads the values in this key order). -/
def recordInsert (rec : List (String × Nat)) (k : String) (v : Nat) :
    List (String × Nat) :=
  if rec.any (·.1 = k) then rec.map (fun e => if e.1 = k then (k, v) else e)
  else rec ++ [(k, v)]

/-- Record built by successive insertions, first entry first. -/
def buildRecord (entries : List (String × Nat)) : List (String × Nat) :=
  entries.foldl (fun r e => recordInsert r e.1 e.2) []

/-- Lookup in a record; a missing key reads as undefined, which the source
coerces with `|| 0` at the use site. -/
def lookupRecord (rec : List (String × Nat)) (k : String) : Option Nat :=
  (rec.find? (·.1 = k)).map (·.2)

/-- Effect part of GameService.playCard, taken after all guards have
passed: the card moves from the hand at `playerIndex` to the discard pile,
special effects and pending penalties are applied, a play that empties the
hand finishes the game and computes the round scores, and otherwise the
turn advances through the validating constructor. -/
def playCardCore (state : GameState) (playerId : String) (cardId : Nat)
    (chosenColor : Option CardColor) (playerIndex : Nat) (card : Card) :
    Except GameError GameState :=
  let player := state.players.getD playerIndex default
  let newColor :=
    if isWildCard card then chosenColor.getD card.color else card.color
  let newPlayerCards := player.cards.filter (·.id ≠ cardId)
  let action : GameAction :=
    { type := ActionType.play, player := playerId, card := some card,
      newColor := if isWildCard card then chosenColor else none }
  let needsUnoCall := newPlayerCards.length = 1
  let hasCalledUno := player.hasCalledUno
  let playerStats := { player.stats with
    cardsPlayed := player.stats.cardsPlayed + 1,
    specialCardsPlayed := player.stats.specialCardsPlayed
      + (if card.type ≠ CardType.number then 1 else 0) }
  let pendingCardsToDraw := state.pendingCardsToDraw
    + (if card.type = CardType.draw2 then 2
       else if card.type = CardType.wild4 then 4 else 0)
  let nextPlayerIndex :=
    if card.type = CardType.skip then
      getNextPlayerIndexFrom state state.currentPlayerIndex
    else state.currentPlayerIndex
  let direction :=
    if card.type = CardType.reverse then
      (if state.direction = 1 then (-1 : Int) else 1)
    else state.direction
  let mustCallUno :=
    if needsUnoCall ∧ ¬ hasCalledUno then some playerId else none
  let updatedPlayers := mapIdx0
    (fun idx p =>
      if idx = playerIndex then
        { p with
            cards := newPlayerCards,
            hasCalledUno := if needsUnoCall then hasCalledUno else false,
            stats := playerStats }
      else p)
    state.players
  let actionHistory := (action :: state.actionHistory).take 20
  if newPlayerCards.length = 0 then
    let winBase := updatedPlayers.getD playerIndex default
    let roundScores := buildRecord
      (updatedPlayers.map (fun p => (p.id, handPoints p)))
    let winPoints := (roundScores.map (·.2)).sum
    let currentRound0 : GameRound :=
      match state.rounds.getLast? with
      | some r => { r with winner := some playerId, scores := roundScores }
      | none =>
        { roundNumber := 0, winner := some playerId,
          scores := roundScores, firstPlayer := "" }
    let rounds2 := state.rounds.dropLast ++ [currentRound0]
    let finalPlayers := updatedPlayers.map (fun p =>
      if p.id = playerId then
        { p with
            score := p.score + (winPoints : Int),
            roundScore := (winPoints : Int),
            stats := { p.stats with
              gamesWon := p.stats.gamesWon + 1,
              totalScore := p.stats.totalScore + (winPoints : Int) } }
      else
        let losePoints := (lookupRecord roundScores p.id).getD 0
        { p with
            roundScore := -(losePoints : Int),
            stats := { p.stats with
              totalScore := p.stats.totalScore - (losePoints : Int) } })
    validateState { state with
      players := finalPlayers,
      currentPlayerIndex := nextPlayerIndex,
      direction := direction,
      discardPile := state.discardPile ++ [card],
      currentColor := newColor,
      lastPlayedCard := some card,
      gameStatus := GameStatus.finished,
      winner := some winBase,
      rounds := rounds2,
      lastAction := some action,
      actionHistory := actionHistory,
      pendingCardsToDraw := pendingCardsToDraw,
      mustCallUno := mustCallUno }
  else
    (validateState { state with
      players := updatedPlayers,
      currentPlayerIndex := nextPlayerIndex,
      direction := direction,
      discardPile := state.discardPile ++ [card],
      currentColor := newColor,
      lastPlayedCard := some card,
      winner := none,
      lastAction := some action,
      actionHistory := actionHistory,
      pendingCardsToDraw := pendingCardsToDraw,
      mustCallUno := mustCallUno }).bind nextTurn

/-- GameService.playCard from gameService.ts. Guards follow the source
order: turn ownership (with the jump-in stub failing closed), card lookup,
canPlayOnTop, the wild-draw-four no-bluffing hand scan, the mandatory color
choice for wild cards, and the seven-zero stub; the effects on a passed
guard chain are applied by playCardCore. Reading the top of an empty
discard pile would make the source dereference undefined; that corner is
modelled as internalUndefined and is unreachable through the service, which
only deals cards together with a starting discard. -/
def playCard (state : GameState) (playerId : String) (cardId : Nat)
    (chosenColor : Option CardColor) : Except GameError GameState :=
  match state.players.findIdx? (·.id = playerId) with
  | none =>
    if state.settings.jumpIn then Except.error GameError.jumpInUnimplemented
    else Except.error GameError.notYourTurn
  | some playerIndex =>
    let player := state.players.getD playerIndex default
    if ¬ player.isCurrentTurn then
      if state.settings.jumpIn then Except.error GameError.jumpInUnimplemented
      else Except.error GameError.notYourTurn
    else
      match player.cards.find? (·.id = cardId) with
      | none => Except.error GameError.cardNotInHand
      | some card =>
        match state.discardPile.getLast? with
        | none => Except.error GameError.internalUndefined
        | some topCard =>
          if ¬ canPlayOnTop card topCard state.currentColor state.settings then
            Except.error GameError.invalidPlay
          else if state.settings.noBluffing ∧ card.type = CardType.wild4
              ∧ player.cards.any
                (fun c => c.id ≠ cardId ∧ c.color = state.currentColor) then
            Except.error GameError.wild4Blocked
          else if isWildCard card ∧ chosenColor = none then
            Except.error GameError.colorRequired
          else if state.settings.sevenZero ∧ card.type = CardType.number
              ∧ (card.value = some 7 ∨ card.value = some 0) then
            Except.error GameError.sevenZeroUnimplemented
          else
            playCardCore state playerId cardId chosenColor playerIndex card

/-- Pure state produced by handleCardDraw for the player at `playerIndex`:
reshuffle the discard pile minus its top card under the draw pile when the
draw pile is short, move the first cardsToDraw cards of the pile into the
hand, and reset the pending penalty. With an empty discard pile the
reshuffle keeps the pile empty (the source would push undefined, an
impossible state through the service). -/
def handleCardDrawState (state : GameState) (playerId : String)
    (cardsToDraw : Nat) (seeds : List Nat) (playerIndex : Nat) : GameState :=
  let needReshuffle := state.deck.length < cardsToDraw
  let deck1 :=
    if needReshuffle then
      state.deck ++ shuffleArray seeds state.discardPile.dropLast
    else state.deck
  let discard1 :=
    if needReshuffle then
      match state.discardPile.getLast? with
      | some t => [t]
      | none => []
    else state.discardPile
  let drawnCards := deck1.take cardsToDraw
  let deck2 := deck1.drop cardsToDraw
  let updatedPlayers := mapIdx0
    (fun idx p =>
      if idx = playerIndex then
        { p with cards := p.cards ++ drawnCards, hasCalledUno := false }
      else p)
    state.players
  let action : GameAction := { type := ActionType.draw, player := playerId }
  { state with
    players := updatedPlayers,
    deck := deck2,
    discardPile := discard1,
    drawPileCount := deck2.length,
    pendingCardsToDraw := 0,
    lastAction := some action,
    actionHistory := (action :: state.actionHistory).take 20 }

/-- Helper handleCardDraw from gameService.ts: build the drawn state and
advance the turn through the validating constructor when passAfterDraw is
set. -/
def handleCardDraw (state : GameState) (playerId : String) (cardsToDraw : Nat)
    (seeds : List Nat) : Except GameError GameState :=
  match state.players.findIdx? (·.id = playerId) with
  | none => Except.error GameError.playerNotFound
  | some playerIndex =>
    let newState := handleCardDrawState state playerId cardsToDraw seeds playerIndex
    if state.settings.passAfterDraw then nextTurn newState
    else Except.ok newState

/-- GameService.drawCards from gameService.ts: draw pendingCardsToDraw cards
when a penalty is pending, otherwise one card. -/
def drawCards (state : GameState) (playerId : String) (seeds : List Nat) :
    Except GameError GameState :=
  match state.players.findIdx? (·.id = playerId) with
  | none => Except.error GameError.notYourTurn
  | some playerIndex =>
    if ¬ (state.players.getD playerIndex default).isCurrentTurn then
      Except.error GameError.notYourTurn
    else
      let cardsToDraw :=
        if state.pendingCardsToDraw > 0 then state.pendingCardsToDraw else 1
      (handleCardDraw state playerId cardsToDraw seeds).bind validateState

/-- While loop of drawUntilMatch: draw single cards until the newest card is
playable or the limit is reached; one seed list per iteration. Reading the
newest card of an empty hand or the top of an empty discard pile would
dereference undefined in the source and is modelled as internalUndefined. -/
def drawUntilLoop (playerId : String) (seedss : List (List Nat)) :
    Nat → GameState → Except GameError GameState
  | 0, state => Except.ok state
  | fuel + 1, state =>
    (handleCardDraw state playerId 1 (seedss.headD [])).bind (fun s1 =>
      match s1.players.find? (·.id = playerId) with
      | none => Except.error GameError.playerNotFound
      | some p =>
        match p.cards.getLast? with
        | none => Except.error GameError.internalUndefined
        | some newCard =>
          match s1.discardPile.getLast? with
          | none => Except.error GameError.internalUndefined
          | some top =>
            if canPlayOnTop newCard top s1.currentColor s1.settings then
              Except.ok s1
            else drawUntilLoop playerId (seedss.drop 1) fuel s1)

/-- GameService.drawUntilMatch from gameService.ts; the draw limit is
`drawCardLimit || 3`, so a zero limit falls back to 3. -/
def drawUntilMatch (state : GameState) (playerId : String)
    (seedss : List (List Nat)) : Except GameError GameState :=
  if ¬ state.settings.drawUntilMatch then
    Except.error GameError.drawUntilMatchDisabled
  else
    match state.players.findIdx? (·.id = playerId) with
    | none => Except.error GameError.notYourTurn
    | some playerIndex =>
      let player := state.players.getD playerIndex default
      if ¬ player.isCurrentTurn then Except.error GameError.notYourTurn
      else
        match state.discardPile.getLast? with
        | none => Except.error GameError.internalUndefined
        | some topCard =>
          if player.cards.any
              (fun c => canPlayOnTop c topCard state.currentColor state.settings) then
            Except.error GameError.alreadyHasPlayable
          else
            let maxDraws :=
              if state.settings.drawCardLimit = 0 then 3
              else state.settings.drawCardLimit
            (drawUntilLoop playerId seedss maxDraws state).bind (fun cur =>
              if state.settings.passAfterDraw then (validateState cur).bind nextTurn
              else validateState cur)

/-- GameService.skipTurn from gameService.ts; the per-player lastAction
metadata it also writes is not modelled. -/
def skipTurn (state : GameState) (playerId : String) :
    Except GameError GameState :=
  match state.players.findIdx? (·.id = playerId) with
  | none => Except.error GameError.notYourTurn
  | some playerIndex =>
    if ¬ (state.players.getD playerIndex default).isCurrentTurn then
      Except.error GameError.notYourTurn
    else
      let action : GameAction := { type := ActionType.skip, player := playerId }
      (validateState { state with
        lastAction := some action,
        actionHistory := (action :: state.actionHistory).take 20 }).bind nextTurn

/-- GameService.challengeWildFour from gameService.ts: only the player now
on turn may challenge the most recent play, which must have been a
wild-draw-four by the challenged player; the color active before that play
is read from the card below the top of the discard pile (fewer than two
discard cards would make the source dereference undefined). The challenged
player hand at play time is reconstructed as the current hand plus the
played card; on a successful challenge the challenged player draws 4, on a
failed one the challenger draws 6, and the pending penalty is cleared. -/
def challengeWildFour (state : GameState) (challengerId challengedId : String)
    (seeds : List Nat) : Except GameError GameState :=
  if ¬ state.settings.allowChallenges then
    Except.error GameError.challengesDisabled
  else
    match state.lastAction with
    | none => Except.error GameError.noWild4ToChallenge
    | some la =>
      match la.card with
      | none => Except.error GameError.noWild4ToChallenge
      | some playedCard =>
        if la.type ≠ ActionType.play ∨ playedCard.type ≠ CardType.wild4 then
          Except.error GameError.noWild4ToChallenge
        else
          match state.players.findIdx? (·.id = challengerId) with
          | none => Except.error GameError.wrongChallenger
          | some challengerIndex =>
            if challengerIndex ≠ state.currentPlayerIndex then
              Except.error GameError.wrongChallenger
            else
              match state.players.findIdx? (·.id = challengedId) with
              | none => Except.error GameError.wrongChallenged
              | some challengedIndex =>
                if la.player ≠ challengedId then
                  Except.error GameError.wrongChallenged
                else if state.discardPile.length < 2 then
                  Except.error GameError.internalUndefined
                else
                  match state.discardPile.get? (state.discardPile.length - 2) with
                  | none => Except.error GameError.internalUndefined
                  | some prevCard =>
                    let challengedPlayer :=
                      state.players.getD challengedIndex default
                    let handAtPlay := challengedPlayer.cards ++ [playedCard]
                    let hadMatchingCard := handAtPlay.any
                      (fun c => c.id ≠ playedCard.id ∧ c.color = prevCard.color)
                    let challenge : Challenge :=
                      { challenger := challengerId, challenged := challengedId,
                        card := playedCard, isValid := hadMatchingCard }
                    let core :=
                      if hadMatchingCard then
                        handleCardDraw state challengedId 4 seeds
                      else handleCardDraw state challengerId 6 seeds
                    core.bind (fun s1 =>
                      validateState { s1 with
                        pendingCardsToDraw := 0,
                        challengePending := some challenge })

/-- Player shape used by the socket server in app/test.tsx (its GameState
carries hands under the `hand` field). -/
structure TestPlayer where
  id : String
  username : String
  hand : List Card
  isHost : Bool
deriving DecidableEq, Repr

/-- GameState shape used by the socket server in app/test.tsx. -/
structure TestGameState where
  roomCode : String
  players : List TestPlayer
  currentPlayerIndex : Nat
  direction : Int
  deck : List Card
  discardPile : List Card
  currentColor : CardColor
  lastPlayedCard : Option Card := none
  gameStatus : GameStatus
deriving DecidableEq, Repr

/-- Value of the hand field in the public projection: the untyped source
assigns either the full card list (for the recipient) or its length. -/
inductive HandView
  | cards (cs : List Card)
  | count (n : Nat)
deriving DecidableEq, Repr

/-- Player entry of the public projection built in test.tsx. -/
structure PublicPlayer where
  id : String
  username : String
  hand : HandView
  isHost : Bool
deriving DecidableEq, Repr

/-- Public projection of a game state built by getPublicGameState in
test.tsx: the spread keeps every field, hands of players other than the
recipient collapse to their length, and the deck collapses to its length. -/
structure PublicGameState where
  roomCode : String
  players : List PublicPlayer
  currentPlayerIndex : Nat
  direction : Int
  deck : Nat
  discardPile : List Card
  currentColor : CardColor
  lastPlayedCard : Option Card := none
  gameStatus : GameStatus
deriving DecidableEq, Repr

/-- getPublicGameState from app/test.tsx. -/
def getPublicGameState (gameState : TestGameState) (playerId : String) :
    PublicGameState :=
  { roomCode := gameState.roomCode,
    players := gameState.players.map (fun player =>
      { id := player.id, username := player.username,
        hand := if player.id = playerId then HandView.cards player.hand
                else HandView.count player.hand.length,
        isHost := player.isHost }),
    currentPlayerIndex := gameState.currentPlayerIndex,
    direction := gameState.direction,
    deck := gameState.deck.length,
    discardPile := gameState.discardPile,
    currentColor := gameState.currentColor,
    lastPlayedCard := gameState.lastPlayedCard,
    gameStatus := gameState.gameStatus }

/-! Basic list infrastructure for the conservation proofs. -/

theorem set_cons_perm {α : Type} {l : List α} {j : Nat} {a b : α}
    (h : l.get? j = some b) : List.Perm (b :: l.set j a) (a :: l) := by
  induction l generalizing j with
  | nil => simp at h
  | cons c t ih =>
    cases j with
    | zero =>
      simp at h
      subst h
      exact List.Perm.swap a c t
    | succ j =>
      simp only [List.get?] at h
      have step := ih h
      have h1 : List.Perm (b :: (c :: t).set (j + 1) a) (c :: b :: t.set j a) := by
        simp only [List.set]
        exact List.Perm.swap c b _
      have h2 : List.Perm (c :: b :: t.set j a) (c :: a :: t) :=
        List.Perm.cons c step
      exact (h1.trans h2).trans (List.Perm.swap a c t)

theorem get?_set_ne {α : Type} (l : List α) (i j : Nat) (a : α) (hij : i ≠ j) :
    (l.set i a).get? j = l.get? j := by
  induction l generalizing i j with
  | nil => simp
  | cons c t ih =>
    cases i with
    | zero =>
      cases j with
      | zero => exact absurd rfl hij
      | succ j => simp [List.set]
    | succ i =>
      cases j with
      | zero => simp [List.set]
      | succ j =>
        simp only [List.set, List.get?]
        exact ih i j (fun hh => hij (by rw [hh]))

theorem set_get_self {α : Type} {l : List α} {i : Nat} {a : α}
    (h : l.get? i = some a) : l.set i a = l := by
  induction l generalizing i with
  | nil => simp at h
  | cons c t ih =>
    cases i with
    | zero => simp_all [List.set]
    | succ i =>
      simp only [List.get?] at h
      simp [List.set, ih h]

theorem listSwap_perm {α : Type} (l : List α) (i j : Nat) :
    List.Perm (listSwap l i j) l := by
  cases hi : l.get? i with
  | none =>
    cases hj : l.get? j with
    | none => simp only [listSwap, hi, hj]; exact List.Perm.refl l
    | some b => simp only [listSwap, hi, hj]; exact List.Perm.refl l
  | some a =>
    cases hj : l.get? j with
    | none => simp only [listSwap, hi, hj]; exact List.Perm.refl l
    | some b =>
      simp only [listSwap, hi, hj]
      by_cases hij : i = j
      · subst hij
        rw [hi] at hj
        cases hj
        rw [List.set_set, set_get_self hi]
      · have hj2 : (l.set i b).get? j = some b := by
          rw [get?_set_ne l i j b hij, hj]
        have p1 := set_cons_perm (a := a) hj2
        have p2 := set_cons_perm (a := b) hi
        exact (p1.trans p2).cons_inv

theorem fisherYatesAux_perm {α : Type} (i : Nat) (seeds : List Nat)
    (l : List α) : List.Perm (fisherYatesAux seeds l i) l := by
  induction i generalizing seeds l with
  | zero => simp only [fisherYatesAux]; exact List.Perm.refl l
  | succ i ih =>
    cases seeds with
    | nil => simp only [fisherYatesAux]; exact List.Perm.refl l
    | cons s rest =>
      simp only [fisherYatesAux]
      exact (ih rest _).trans (listSwap_perm l (i + 1) (s % (i + 2)))

theorem shuffleArray_perm {α : Type} (seeds : List Nat) (l : List α) :
    List.Perm (shuffleArray seeds l) l :=
  fisherYatesAux_perm _ seeds l

theorem eraseIdx_cons_perm {α : Type} {l : List α} {i : Nat} {a : α}
    (h : l.get? i = some a) : List.Perm (a :: l.eraseIdx i) l := by
  induction l generalizing i with
  | nil => simp at h
  | cons c t ih =>
    cases i with
    | zero =>
      simp at h
      subst h
      simp [List.eraseIdx]
    | succ i =>
      simp only [List.get?] at h
      have h1 : List.Perm (a :: (c :: t).eraseIdx (i + 1)) (c :: a :: t.eraseIdx i) := by
        simp only [List.eraseIdx]
        exact List.Perm.swap c a _
      exact h1.trans (List.Perm.cons c (ih h))

theorem findIdx?_start_some {α : Type} {p : α → Bool} :
    ∀ (l : List α) (n i : Nat), List.findIdx? p l n = some i →
      n ≤ i ∧ i - n < l.length ∧ ∃ a, l.get? (i - n) = some a ∧ p a = true := by
  intro l
  induction l with
  | nil => intro n i h; simp [List.findIdx?] at h
  | cons c t ih =>
    intro n i h
    rw [List.findIdx?_cons] at h
    by_cases hc : p c = true
    · rw [if_pos hc] at h
      cases h
      exact ⟨Nat.le_refl n, by simp, c, by simp, hc⟩
    · rw [if_neg hc] at h
      obtain ⟨h1, h2, a, h3, h4⟩ := ih (n + 1) i h
      refine ⟨Nat.le_of_succ_le h1, ?_, a, ?_, h4⟩
      · have : i - n = (i - (n + 1)) + 1 := by omega
        simp only [List.length_cons]
        omega
      · have : i - n = (i - (n + 1)) + 1 := by omega
        rw [this]
        simpa using h3

theorem findIdx?_some_facts {α : Type} {p : α → Bool} {l : List α} {i : Nat}
    (h : l.findIdx? p = some i) :
    i < l.length ∧ ∃ a, l.get? i = some a ∧ p a = true := by
  have := findIdx?_start_some l 0 i h
  simpa using this

theorem mapIdxFrom_length {α β : Type} (f : Nat → α → β) :
    ∀ (n : Nat) (l : List α), (mapIdxFrom f n l).length = l.length := by
  intro n l
  induction l generalizing n with
  | nil => rfl
  | cons c t ih => simp [mapIdxFrom, ih]

theorem mapIdxFrom_map_proj {α β : Type} {f : Nat → α → α} {proj : α → β}
    (hf : ∀ i a, proj (f i a) = proj a) :
    ∀ (n : Nat) (l : List α), (mapIdxFrom f n l).map proj = l.map proj := by
  intro n l
  induction l generalizing n with
  | nil => rfl
  | cons c t ih => simp [mapIdxFrom, hf, ih]

theorem mapIdxFrom_ite_lt {α : Type} (g : α → α) {m : Nat} :
    ∀ (n : Nat) (l : List α), m < n →
      mapIdxFrom (fun i a => if i = m then g a else a) n l = l := by
  intro n l
  induction l generalizing n with
  | nil => intro _; rfl
  | cons c t ih =>
    intro hmn
    have hne : n ≠ m := by omega
    simp [mapIdxFrom, hne, ih (n + 1) (by omega)]

theorem mapIdxFrom_ite_set {α : Type} (g : α → α) :
    ∀ (l : List α) (n k : Nat) (p : α), l.get? k = some p →
      mapIdxFrom (fun i a => if i = n + k then g a else a) n l
      = l.set k (g p) := by
  intro l
  induction l with
  | nil => intro n k p h; simp at h
  | cons c t ih =>
    intro n k p h
    cases k with
    | zero =>
      simp at h
      subst h
      simp only [mapIdxFrom, List.set]
      rw [mapIdxFrom_ite_lt g (n + 1) t (by omega)]
      simp
    | succ k =>
      simp only [List.get?] at h
      have hne : n ≠ n + (k + 1) := by omega
      simp only [mapIdxFrom, if_neg hne, List.set]
      have harith : n + (k + 1) = (n + 1) + k := by omega
      rw [harith]
      rw [ih (n + 1) k p h]

theorem mapIdx0_ite_set {α : Type} (g : α → α) (l : List α) (k : Nat) (p : α)
    (h : l.get? k = some p) :
    mapIdx0 (fun i a => if i = k then g a else a) l = l.set k (g p) := by
  unfold mapIdx0
  have := mapIdxFrom_ite_set g l 0 k p h
  simpa using this

theorem get?_set_self {α : Type} :
    ∀ (l : List α) (k : Nat) (x : α), k < l.length → (l.set k x).get? k = some x := by
  intro l
  induction l with
  | nil => intro k x h; simp at h
  | cons c t ih =>
    intro k x h
    cases k with
    | zero => simp [List.set]
    | succ k =>
      simp only [List.set, List.get?]
      exact ih k x (by simpa using h)

/-- Multiset of all cards held in the hands of a player list. -/
def handsBag (players : List Player) : Multiset Card :=
  ↑(List.flatten (players.map (·.cards)))

/-- Multiset of every card in existence in a state: draw pile, discard pile
and all hands together. -/
def cardBag (s : GameState) : Multiset Card :=
  ↑s.deck + ↑s.discardPile + handsBag s.players

/-- Deck-conservation invariant of the claims: while a round is active the
cards of the state form exactly one full fresh deck. -/
def deckComplete (s : GameState) : Prop :=
  s.gameStatus = GameStatus.playing → cardBag s = ↑createNewDeck

/-- Claim invariant about turn flags: while playing, exactly one player has
the isCurrentTurn flag. -/
def oneTurn (s : GameState) : Prop :=
  s.gameStatus = GameStatus.playing → s.players.countP (·.isCurrentTurn) = 1

theorem handsBag_cons (p : Player) (t : List Player) :
    handsBag (p :: t) = ↑p.cards + handsBag t := by
  simp [handsBag, List.flatten]

theorem handsBag_set :
    ∀ (l : List Player) (k : Nat) (p q : Player), l.get? k = some p →
      handsBag (l.set k q) + ↑p.cards = handsBag l + ↑q.cards := by
  intro l
  induction l with
  | nil => intro k p q h; simp at h
  | cons c t ih =>
    intro k p q h
    cases k with
    | zero =>
      simp at h
      subst h
      simp only [List.set, handsBag_cons]
      abel
    | succ k =>
      simp only [List.get?] at h
      simp only [List.set, handsBag_cons]
      have := ih k p q h
      calc ↑c.cards + handsBag (t.set k q) + ↑p.cards
          = ↑c.cards + (handsBag (t.set k q) + ↑p.cards) := by abel
        _ = ↑c.cards + (handsBag t + ↑q.cards) := by rw [this]
        _ = ↑c.cards + handsBag t + ↑q.cards := by abel

theorem handsBag_map_preserve {f : Player → Player}
    (hf : ∀ p, (f p).cards = p.cards) (l : List Player) :
    handsBag (l.map f) = handsBag l := by
  unfold handsBag
  rw [List.map_map]
  have : (·.cards) ∘ f = (·.cards : Player → List Card) := by
    funext p
    exact hf p
  rw [this]

theorem handsBag_mapIdxFrom_preserve {f : Nat → Player → Player}
    (hf : ∀ i p, (f i p).cards = p.cards) (n : Nat) (l : List Player) :
    handsBag (mapIdxFrom f n l) = handsBag l := by
  unfold handsBag
  rw [mapIdxFrom_map_proj hf]

theorem cards_sublist_join :
    ∀ (l : List Player) (k : Nat) (p : Player), l.get? k = some p →
      p.cards.Sublist (List.flatten (l.map (·.cards))) := by
  intro l
  induction l with
  | nil => intro k p h; simp at h
  | cons c t ih =>
    intro k p h
    cases k with
    | zero =>
      simp at h
      subst h
      simp only [List.map, List.flatten]
      exact List.sublist_append_left _ _
    | succ k =>
      simp only [List.get?] at h
      simp only [List.map, List.flatten]
      exact (ih k p h).trans (List.sublist_append_right _ _)

theorem getLast?_cons_ne_none {α : Type} :
    ∀ (t : List α) (a : α), (a :: t).getLast? ≠ none := by
  intro t
  induction t with
  | nil => intro a h; simp at h
  | cons b u ih =>
    intro a h
    rw [List.getLast?_cons_cons] at h
    exact ih b h

theorem getLast?_none_eq_nil {α : Type} {l : List α}
    (h : l.getLast? = none) : l = [] := by
  cases l with
  | nil => rfl
  | cons a t => exact absurd h (getLast?_cons_ne_none t a)

theorem dropLast_append_of_getLast? {α : Type} :
    ∀ {l : List α} {x : α}, l.getLast? = some x → l.dropLast ++ [x] = l := by
  intro l
  induction l with
  | nil => intro x h; simp at h
  | cons a t ih =>
    intro x h
    cases t with
    | nil =>
      simp at h
      subst h
      rfl
    | cons b u =>
      rw [List.getLast?_cons_cons] at h
      have := ih h
      simp only [List.dropLast_cons₂, List.cons_append, this]

theorem validateState_ok {s t : GameState} (h : validateState s = Except.ok t) :
    t = s := by
  unfold validateState at h
  by_cases h1 : s.gameStatus = GameStatus.playing
      ∧ s.players.countP (·.isCurrentTurn) ≠ 1
  · rw [if_pos h1] at h
    simp at h
  · rw [if_neg h1] at h
    by_cases h2 : s.players.length > 0 ∧ ¬ s.players.any (·.isHost)
    · rw [if_pos h2] at h
      simp at h
    · rw [if_neg h2] at h
      simp only [Except.ok.injEq] at h
      exact h.symm

theorem validateState_ok_oneTurn {s t : GameState}
    (h : validateState s = Except.ok t) : oneTurn t := by
  have ht := validateState_ok h
  subst ht
  unfold validateState at h
  by_cases h1 : t.gameStatus = GameStatus.playing
      ∧ t.players.countP (·.isCurrentTurn) ≠ 1
  · rw [if_pos h1] at h
    simp at h
  · intro hp
    by_contra hc
    exact h1 ⟨hp, hc⟩

theorem nextTurn_ok {s t : GameState} (h : nextTurn s = Except.ok t) :
    t = nextTurnPure s := by
  unfold nextTurn at h
  exact validateState_ok h

theorem bind_validate_nextTurn_ok {x t : GameState}
    (h : (validateState x).bind nextTurn = Except.ok t) : t = nextTurnPure x := by
  cases hv : validateState x with
  | error e => rw [hv] at h; simp [Except.bind] at h
  | ok y =>
    rw [hv] at h
    simp only [Except.bind] at h
    have hy := validateState_ok hv
    subst hy
    exact nextTurn_ok h

theorem nextTurnPure_players_eq (s : GameState) :
    (nextTurnPure s).players = mapIdx0
      (fun idx p => { p with isCurrentTurn := idx = getNextPlayerIndex s })
      s.players := rfl

theorem nextTurnPure_handsBag (s : GameState) :
    handsBag (nextTurnPure s).players = handsBag s.players := by
  rw [nextTurnPure_players_eq]
  unfold mapIdx0
  apply handsBag_mapIdxFrom_preserve
  intro i p
  rfl

theorem nextTurnPure_cardBag (s : GameState) :
    cardBag (nextTurnPure s) = cardBag s := by
  unfold cardBag
  rw [nextTurnPure_handsBag]
  rfl

theorem nextTurnPure_gameStatus (s : GameState) :
    (nextTurnPure s).gameStatus = s.gameStatus := rfl

theorem nextTurnPure_settings (s : GameState) :
    (nextTurnPure s).settings = s.settings := rfl

/-- Draw source of handleCardDrawState: the draw pile, extended by the
reshuffled discard pile (minus its top) when it is short. -/
def drawSource (s : GameState) (n : Nat) (seeds : List Nat) : List Card :=
  if s.deck.length < n then
    s.deck ++ shuffleArray seeds s.discardPile.dropLast
  else s.deck

/-- Hand update applied to the drawing player by handleCardDrawState. -/
def drawUpd (s : GameState) (n : Nat) (seeds : List Nat) (p : Player) : Player :=
  { p with
      cards := p.cards ++ (drawSource s n seeds).take n,
      hasCalledUno := false }

theorem handleCardDrawState_deck (s : GameState) (pid : String) (n : Nat)
    (seeds : List Nat) (pi : Nat) :
    (handleCardDrawState s pid n seeds pi).deck = (drawSource s n seeds).drop n := rfl

theorem handleCardDrawState_discardPile (s : GameState) (pid : String) (n : Nat)
    (seeds : List Nat) (pi : Nat) :
    (handleCardDrawState s pid n seeds pi).discardPile
    = (if s.deck.length < n then
        (match s.discardPile.getLast? with
         | some t => [t]
         | none => [])
      else s.discardPile) := rfl

theorem handleCardDrawState_players (s : GameState) (pid : String) (n : Nat)
    (seeds : List Nat) (pi : Nat) :
    (handleCardDrawState s pid n seeds pi).players
    = mapIdx0
        (fun idx p => if idx = pi then drawUpd s n seeds p else p)
        s.players := rfl

theorem handleCardDrawState_gameStatus (s : GameState) (pid : String) (n : Nat)
    (seeds : List Nat) (pi : Nat) :
    (handleCardDrawState s pid n seeds pi).gameStatus = s.gameStatus := rfl

theorem handleCardDrawState_settings (s : GameState) (pid : String) (n : Nat)
    (seeds : List Nat) (pi : Nat) :
    (handleCardDrawState s pid n seeds pi).settings = s.settings := rfl

theorem handleCardDrawState_pending (s : GameState) (pid : String) (n : Nat)
    (seeds : List Nat) (pi : Nat) :
    (handleCardDrawState s pid n seeds pi).pendingCardsToDraw = 0 := rfl

theorem coe_take_drop (n : Nat) (l : List Card) :
    (↑(l.take n) : Multiset Card) + ↑(l.drop n) = ↑l := by
  rw [Multiset.coe_add, List.take_append_drop]

theorem handleCardDrawState_handsBag {s : GameState} {pi : Nat} {pl : Player}
    (hget : s.players.get? pi = some pl) (pid : String) (n : Nat)
    (seeds : List Nat) :
    handsBag (handleCardDrawState s pid n seeds pi).players
    = handsBag s.players + ↑((drawSource s n seeds).take n) := by
  rw [handleCardDrawState_players]
  rw [mapIdx0_ite_set _ s.players pi pl hget]
  have hs := handsBag_set s.players pi pl (drawUpd s n seeds pl) hget
  have hcoe : (↑((drawUpd s n seeds pl).cards) : Multiset Card)
      = ↑pl.cards + ↑((drawSource s n seeds).take n) :=
    (Multiset.coe_add _ _).symm
  apply add_right_cancel (b := (↑pl.cards : Multiset Card))
  rw [hs, hcoe]
  abel

theorem handleCardDrawState_cardBag {s : GameState} {pi : Nat} {pl : Player}
    (hget : s.players.get? pi = some pl) (pid : String) (n : Nat)
    (seeds : List Nat) :
    cardBag (handleCardDrawState s pid n seeds pi) = cardBag s := by
  unfold cardBag
  rw [handleCardDrawState_deck, handleCardDrawState_discardPile,
    handleCardDrawState_handsBag hget pid n seeds]
  by_cases hR : s.deck.length < n
  · rw [if_pos hR]
    cases hL : s.discardPile.getLast? with
    | some last =>
      have hmatch : (match (some last : Option Card) with
          | some t => [t]
          | none => ([] : List Card)) = [last] := rfl
      rw [hmatch]
      have hP : (↑s.discardPile.dropLast : Multiset Card) + ↑[last]
          = ↑s.discardPile := by
        rw [Multiset.coe_add, dropLast_append_of_getLast? hL]
      have hD1 : (↑((drawSource s n seeds).take n) : Multiset Card)
          + ↑((drawSource s n seeds).drop n)
          = ↑s.deck + ↑s.discardPile.dropLast := by
        rw [coe_take_drop]
        unfold drawSource
        rw [if_pos hR]
        rw [← Multiset.coe_add,
          Multiset.coe_eq_coe.mpr (shuffleArray_perm seeds s.discardPile.dropLast)]
      calc (↑((drawSource s n seeds).drop n) : Multiset Card) + ↑[last]
            + (handsBag s.players + ↑((drawSource s n seeds).take n))
          = ↑((drawSource s n seeds).take n) + ↑((drawSource s n seeds).drop n)
            + ↑[last] + handsBag s.players := by abel
        _ = ↑s.deck + ↑s.discardPile.dropLast + ↑[last] + handsBag s.players := by
            rw [hD1]
        _ = ↑s.deck + (↑s.discardPile.dropLast + ↑[last]) + handsBag s.players := by
            abel
        _ = ↑s.deck + ↑s.discardPile + handsBag s.players := by rw [hP]
    | none =>
      have hnil := getLast?_none_eq_nil hL
      have hshuf : shuffleArray seeds s.discardPile.dropLast = [] := by
        rw [hnil]
        exact (shuffleArray_perm seeds ([] : List Card).dropLast).eq_nil
      have hmatch : (match (none : Option Card) with
          | some t => [t]
          | none => ([] : List Card)) = [] := rfl
      rw [hmatch]
      have hD1 : (↑((drawSource s n seeds).take n) : Multiset Card)
          + ↑((drawSource s n seeds).drop n) = ↑s.deck := by
        rw [coe_take_drop]
        unfold drawSource
        rw [if_pos hR, hshuf, List.append_nil]
      rw [hnil, ← hD1]
      abel
  · rw [if_neg hR]
    have hD1 : (↑((drawSource s n seeds).take n) : Multiset Card)
        + ↑((drawSource s n seeds).drop n) = ↑s.deck := by
      rw [coe_take_drop]
      unfold drawSource
      rw [if_neg hR]
    rw [← hD1]
    abel

theorem handleCardDraw_ok_shape {s : GameState} {pid : String} {n : Nat}
    {seeds : List Nat} {t : GameState}
    (h : handleCardDraw s pid n seeds = Except.ok t) :
    ∃ pi pl, s.players.findIdx? (·.id = pid) = some pi
      ∧ s.players.get? pi = some pl ∧ pl.id = pid
      ∧ ((s.settings.passAfterDraw = true
            ∧ t = nextTurnPure (handleCardDrawState s pid n seeds pi))
         ∨ (s.settings.passAfterDraw = false
            ∧ t = handleCardDrawState s pid n seeds pi)) := by
  unfold handleCardDraw at h
  cases hf : s.players.findIdx? (·.id = pid) with
  | none =>
    rw [hf] at h
    simp at h
  | some pi =>
    rw [hf] at h
    simp only [] at h
    obtain ⟨hlt, pl, hget, hpred⟩ := findIdx?_some_facts hf
    refine ⟨pi, pl, rfl, hget, of_decide_eq_true hpred, ?_⟩
    by_cases hp : s.settings.passAfterDraw
    · rw [if_pos hp] at h
      exact Or.inl ⟨hp, nextTurn_ok h⟩
    · rw [if_neg hp] at h
      simp only [Except.ok.injEq] at h
      exact Or.inr ⟨Bool.not_eq_true _ ▸ hp, h.symm⟩

theorem handleCardDraw_bag {s : GameState} {pid : String} {n : Nat}
    {seeds : List Nat} {t : GameState}
    (h : handleCardDraw s pid n seeds = Except.ok t) :
    cardBag t = cardBag s ∧ t.gameStatus = s.gameStatus
      ∧ t.settings = s.settings := by
  obtain ⟨pi, pl, hf, hget, hid, hcase⟩ := handleCardDraw_ok_shape h
  rcases hcase with ⟨hp, ht⟩ | ⟨hp, ht⟩ <;> subst ht
  · exact ⟨(nextTurnPure_cardBag _).trans
        (handleCardDrawState_cardBag hget pid n seeds),
      (nextTurnPure_gameStatus _).trans
        (handleCardDrawState_gameStatus s pid n seeds pi),
      (nextTurnPure_settings _).trans
        (handleCardDrawState_settings s pid n seeds pi)⟩
  · exact ⟨handleCardDrawState_cardBag hget pid n seeds,
      handleCardDrawState_gameStatus s pid n seeds pi,
      handleCardDrawState_settings s pid n seeds pi⟩

theorem bind_validateState_ok {e : Except GameError GameState} {t : GameState}
    (h : e.bind validateState = Except.ok t) : e = Except.ok t := by
  cases e with
  | error u => simp [Except.bind] at h
  | ok y =>
    simp only [Except.bind] at h
    rw [validateState_ok h]

theorem bind_validateState_ok_oneTurn {e : Except GameError GameState}
    {t : GameState} (h : e.bind validateState = Except.ok t) : oneTurn t := by
  cases e with
  | error u => simp [Except.bind] at h
  | ok y =>
    simp only [Except.bind] at h
    exact validateState_ok_oneTurn h

theorem bind_validate_nextTurn_ok2 {x t : GameState}
    (h : (validateState x).bind nextTurn = Except.ok t) :
    t = nextTurnPure x ∧ oneTurn t := by
  cases hv : validateState x with
  | error e => rw [hv] at h; simp [Except.bind] at h
  | ok y =>
    rw [hv] at h
    simp only [Except.bind] at h
    have hy := validateState_ok hv
    subst hy
    exact ⟨nextTurn_ok h, validateState_ok_oneTurn h⟩

theorem addPlayer_ok_shape {s t : GameState} {pid pname : String}
    (h : addPlayer s pid pname = Except.ok t) :
    s.gameStatus = GameStatus.waiting
      ∧ t = { s with players := s.players ++ [freshPlayer pid pname false] }
      ∧ oneTurn t := by
  unfold addPlayer at h
  by_cases h1 : s.gameStatus ≠ GameStatus.waiting
  · rw [if_pos h1] at h
    simp at h
  · rw [if_neg h1] at h
    by_cases h2 : s.players.length ≥ s.settings.maxPlayers
    · rw [if_pos h2] at h
      simp at h
    · rw [if_neg h2] at h
      by_cases h3 : s.players.any (·.id = pid)
      · rw [if_pos h3] at h
        simp at h
      · rw [if_neg h3] at h
        exact ⟨not_not.mp h1, validateState_ok h,
          validateState_ok_oneTurn h⟩

theorem setPlayerReady_ok_shape {s t : GameState} {pid : String} {r : Bool}
    (h : setPlayerReady s pid r = Except.ok t) :
    s.gameStatus = GameStatus.waiting
      ∧ t = { s with
              players := s.players.map
                (fun p => if p.id = pid then { p with isReady := r } else p) }
      ∧ oneTurn t := by
  unfold setPlayerReady at h
  by_cases h1 : s.gameStatus ≠ GameStatus.waiting
  · rw [if_pos h1] at h
    simp at h
  · rw [if_neg h1] at h
    by_cases h2 : s.players.findIdx? (·.id = pid) = none
    · rw [if_pos h2] at h
      simp at h
    · rw [if_neg h2] at h
      exact ⟨not_not.mp h1, validateState_ok h,
        validateState_ok_oneTurn h⟩

theorem skipTurn_ok_shape {s t : GameState} {pid : String}
    (h : skipTurn s pid = Except.ok t) :
    (∃ pi, s.players.findIdx? (·.id = pid) = some pi
      ∧ (s.players.getD pi default).isCurrentTurn = true)
      ∧ t = nextTurnPure { s with
          lastAction := some { type := ActionType.skip, player := pid },
          actionHistory :=
            ({ type := ActionType.skip, player := pid } :: s.actionHistory).take 20 }
      ∧ oneTurn t := by
  unfold skipTurn at h
  cases hf : s.players.findIdx? (·.id = pid) with
  | none => rw [hf] at h; simp at h
  | some pi =>
    rw [hf] at h
    simp only [] at h
    by_cases h2 : (s.players.getD pi default).isCurrentTurn
    · rw [if_neg (by simpa using h2)] at h
      obtain ⟨ht, h1t⟩ := bind_validate_nextTurn_ok2 h
      exact ⟨⟨pi, rfl, h2⟩, ht, h1t⟩
    · rw [if_pos (by simpa using h2)] at h
      simp at h

theorem drawCards_ok_shape {s t : GameState} {pid : String} {seeds : List Nat}
    (h : drawCards s pid seeds = Except.ok t) :
    (∃ pi, s.players.findIdx? (·.id = pid) = some pi
      ∧ (s.players.getD pi default).isCurrentTurn = true)
      ∧ handleCardDraw s pid
          (if s.pendingCardsToDraw > 0 then s.pendingCardsToDraw else 1) seeds
        = Except.ok t
      ∧ oneTurn t := by
  unfold drawCards at h
  cases hf : s.players.findIdx? (·.id = pid) with
  | none => rw [hf] at h; simp at h
  | some pi =>
    rw [hf] at h
    simp only [] at h
    by_cases h2 : (s.players.getD pi default).isCurrentTurn
    · rw [if_neg (by simpa using h2)] at h
      exact ⟨⟨pi, rfl, h2⟩, bind_validateState_ok h,
        bind_validateState_ok_oneTurn h⟩
    · rw [if_pos (by simpa using h2)] at h
      simp at h

theorem removePlayer_ok_shape {s t : GameState} {pid : String}
    (h : removePlayer s pid = Except.ok t) :
    oneTurn t
      ∧ ∃ pi, s.players.findIdx? (·.id = pid) = some pi
      ∧ ((s.gameStatus = GameStatus.playing
            ∧ (t = nextTurnPure { s with
                  players := s.players.map (fun p =>
                    if p.id = pid then { p with isConnected := false } else p) }
               ∨ t = { s with
                  players := s.players.map (fun p =>
                    if p.id = pid then { p with isConnected := false } else p) }))
         ∨ (s.gameStatus ≠ GameStatus.playing
            ∧ t = { s with
                players :=
                  if (s.players.getD pi default).isHost
                      ∧ (s.players.filter (·.id ≠ pid)).length > 0 then
                    mapIdx0
                      (fun idx p => if idx = 0 then { p with isHost := true } else p)
                      (s.players.filter (·.id ≠ pid))
                  else s.players.filter (·.id ≠ pid) })) := by
  unfold removePlayer at h
  cases hf : s.players.findIdx? (·.id = pid) with
  | none => rw [hf] at h; simp at h
  | some pi =>
    rw [hf] at h
    simp only [] at h
    by_cases hst : s.gameStatus = GameStatus.playing
    · rw [if_pos hst] at h
      by_cases hturn : (s.players.getD pi default).isCurrentTurn
      · rw [if_pos hturn] at h
        obtain ⟨ht, hone⟩ := bind_validate_nextTurn_ok2 h
        exact ⟨hone, pi, rfl, Or.inl ⟨hst, Or.inl ht⟩⟩
      · rw [if_neg hturn] at h
        exact ⟨validateState_ok_oneTurn h, pi, rfl,
          Or.inl ⟨hst, Or.inr (validateState_ok h)⟩⟩
    · rw [if_neg hst] at h
      exact ⟨validateState_ok_oneTurn h, pi, rfl,
        Or.inr ⟨hst, validateState_ok h⟩⟩

theorem challengeWildFour_inv {s t : GameState} {cgr cgd : String}
    {seeds : List Nat} (h : challengeWildFour s cgr cgd seeds = Except.ok t) :
    oneTurn t ∧ cardBag t = cardBag s ∧ t.gameStatus = s.gameStatus
      ∧ t.settings = s.settings := by
  unfold challengeWildFour at h
  split at h
  · simp at h
  · split at h
    · simp at h
    · split at h
      · simp at h
      · split at h
        · simp at h
        · split at h
          · simp at h
          · split at h
            · simp at h
            · split at h
              · simp at h
              · split at h
                · simp at h
                · split at h
                  · simp at h
                  · split at h
                    · simp at h
                    · simp only [] at h
                      split at h
                      · cases hcore : handleCardDraw s cgd 4 seeds with
                        | error e => rw [hcore] at h; simp [Except.bind] at h
                        | ok s1 =>
                          rw [hcore] at h
                          simp only [Except.bind] at h
                          obtain ⟨hbag, hgs, hset⟩ := handleCardDraw_bag hcore
                          have ht := validateState_ok h
                          refine ⟨validateState_ok_oneTurn h, ?_, ?_, ?_⟩
                          · rw [ht]
                            exact hbag
                          · rw [ht]
                            exact hgs
                          · rw [ht]
                            exact hset
                      · cases hcore : handleCardDraw s cgr 6 seeds with
                        | error e => rw [hcore] at h; simp [Except.bind] at h
                        | ok s1 =>
                          rw [hcore] at h
                          simp only [Except.bind] at h
                          obtain ⟨hbag, hgs, hset⟩ := handleCardDraw_bag hcore
                          have ht := validateState_ok h
                          refine ⟨validateState_ok_oneTurn h, ?_, ?_, ?_⟩
                          · rw [ht]
                            exact hbag
                          · rw [ht]
                            exact hgs
                          · rw [ht]
                            exact hset

theorem drawUntilLoop_inv {pid : String} :
    ∀ (fuel : Nat) (seedss : List (List Nat)) (s t : GameState),
      drawUntilLoop pid seedss fuel s = Except.ok t →
      cardBag t = cardBag s ∧ t.gameStatus = s.gameStatus
        ∧ t.settings = s.settings := by
  intro fuel
  induction fuel with
  | zero =>
    intro seedss s t h
    unfold drawUntilLoop at h
    simp only [Except.ok.injEq] at h
    subst h
    exact ⟨rfl, rfl, rfl⟩
  | succ f ih =>
    intro seedss s t h
    unfold drawUntilLoop at h
    cases hcore : handleCardDraw s pid 1 (seedss.headD []) with
    | error e => rw [hcore] at h; simp [Except.bind] at h
    | ok s1 =>
      rw [hcore] at h
      simp only [Except.bind] at h
      obtain ⟨hbag, hgs, hset⟩ := handleCardDraw_bag hcore
      split at h
      · simp at h
      · split at h
        · simp at h
        · split at h
          · simp at h
          · split at h
            · simp only [Except.ok.injEq] at h
              subst h
              exact ⟨hbag, hgs, hset⟩
            · obtain ⟨hb2, hg2, hs2⟩ := ih (seedss.drop 1) s1 t h
              exact ⟨hb2.trans hbag, hg2.trans hgs, hs2.trans hset⟩

theorem bind_validate_next_inv {e : Except GameError GameState} {t : GameState}
    (h : e.bind (fun cur => (validateState cur).bind nextTurn) = Except.ok t) :
    ∃ cur, e = Except.ok cur ∧ t = nextTurnPure cur ∧ oneTurn t := by
  cases e with
  | error u => simp [Except.bind] at h
  | ok cur =>
    simp only [Except.bind] at h
    obtain ⟨ht, hone⟩ := bind_validate_nextTurn_ok2 h
    exact ⟨cur, rfl, ht, hone⟩

theorem drawUntilMatch_inv {s t : GameState} {pid : String}
    {seedss : List (List Nat)} (h : drawUntilMatch s pid seedss = Except.ok t) :
    oneTurn t ∧ cardBag t = cardBag s ∧ t.gameStatus = s.gameStatus
      ∧ t.settings = s.settings := by
  unfold drawUntilMatch at h
  try simp only [] at h
  repeat' split at h
  all_goals try (exact absurd h (by simp))
  all_goals
    first
    | (obtain ⟨cur, hcore, ht, hone⟩ := bind_validate_next_inv h
       obtain ⟨hbag, hgs, hset⟩ := drawUntilLoop_inv _ _ _ _ hcore
       subst ht
       exact ⟨hone, (nextTurnPure_cardBag cur).trans hbag,
         (nextTurnPure_gameStatus cur).trans hgs,
         (nextTurnPure_settings cur).trans hset⟩)
    | (have hone := bind_validateState_ok_oneTurn h
       have hcore := bind_validateState_ok h
       obtain ⟨hbag, hgs, hset⟩ := drawUntilLoop_inv _ _ _ _ hcore
       exact ⟨hone, hbag, hgs, hset⟩)

theorem dealHands_bag : ∀ (ps : List Player) (deck : List Card),
    handsBag (dealHands ps deck).1 + ↑((dealHands ps deck).2)
      = (↑deck : Multiset Card) := by
  intro ps
  induction ps with
  | nil =>
    intro deck
    simp [dealHands, handsBag]
  | cons p pt ih =>
    intro deck
    have hd : dealHands (p :: pt) deck
        = ({ p with
              cards := deck.take 7, isReady := true, isCurrentTurn := false,
              hasCalledUno := false } :: (dealHands pt (deck.drop 7)).1,
            (dealHands pt (deck.drop 7)).2) := rfl
    rw [hd]
    rw [handsBag_cons]
    have hcards : ({ p with
        cards := deck.take 7, isReady := true, isCurrentTurn := false,
        hasCalledUno := false } : Player).cards = deck.take 7 := rfl
    rw [hcards]
    have hrec := ih (deck.drop 7)
    calc (↑(deck.take 7) : Multiset Card) + handsBag (dealHands pt (deck.drop 7)).1
          + ↑((dealHands pt (deck.drop 7)).2)
        = ↑(deck.take 7) + (handsBag (dealHands pt (deck.drop 7)).1
            + ↑((dealHands pt (deck.drop 7)).2)) := by abel
      _ = ↑(deck.take 7) + ↑(deck.drop 7) := by rw [hrec]
      _ = ↑deck := coe_take_drop 7 deck

theorem eraseIdx_bag {l : List Card} {i : Nat} {c : Card}
    (h : l.get? i = some c) :
    (↑(l.eraseIdx i) : Multiset Card) + ↑[c] = ↑l := by
  have hperm : ((c :: l.eraseIdx i : List Card) : Multiset Card) = ↑l :=
    Multiset.coe_eq_coe.mpr (eraseIdx_cons_perm h)
  rw [← hperm,
    show (c :: l.eraseIdx i : List Card) = [c] ++ l.eraseIdx i from rfl,
    ← Multiset.coe_add]
  abel

theorem startGame_ok_shape {s t : GameState} {pid : String}
    {seeds1 seeds2 : List Nat} {fseed : Nat}
    (h : startGame s pid seeds1 seeds2 fseed = Except.ok t) :
    (∃ pl, s.players.find? (·.id = pid) = some pl ∧ pl.isHost = true)
      ∧ ¬ (s.players.filter (·.isReady)).length < s.settings.minPlayers - 1
      ∧ oneTurn t ∧ t.gameStatus = GameStatus.playing
      ∧ t.settings = s.settings
      ∧ cardBag t = ↑createNewDeck := by
  unfold startGame at h
  cases hf : s.players.find? (·.id = pid) with
  | none => rw [hf] at h; simp at h
  | some pl =>
    rw [hf] at h
    simp only [] at h
    by_cases hhost : pl.isHost
    · rw [if_neg (by simpa using hhost)] at h
      by_cases hready : (s.players.filter (·.isReady)).length
          < s.settings.minPlayers - 1
      · rw [if_pos hready] at h
        simp at h
      · rw [if_neg hready] at h
        refine ⟨⟨pl, rfl, hhost⟩, hready, ?_⟩
        cases hpick : ((dealHands s.players
            (shuffleArray seeds1 createNewDeck)).2).findIdx?
              (·.type = CardType.number) with
        | some idx =>
          rw [hpick] at h
          simp only [] at h
          cases hget : ((dealHands s.players
              (shuffleArray seeds1 createNewDeck)).2).get? idx with
          | none => rw [hget] at h; simp at h
          | some c =>
            rw [hget] at h
            simp only [] at h
            have hone := validateState_ok_oneTurn h
            have ht := validateState_ok h
            subst ht
            refine ⟨hone, rfl, rfl, ?_⟩
            unfold cardBag
            have hplayers : handsBag (mapIdx0
                (fun idx2 p =>
                  if idx2 = fseed % s.players.length then
                    { p with isCurrentTurn := true }
                  else p)
                (dealHands s.players (shuffleArray seeds1 createNewDeck)).1)
                = handsBag (dealHands s.players
                    (shuffleArray seeds1 createNewDeck)).1 := by
              unfold mapIdx0
              apply handsBag_mapIdxFrom_preserve
              intro i p
              by_cases hi : i = fseed % s.players.length
              · rw [if_pos hi]
              · rw [if_neg hi]
            rw [hplayers]
            have her := eraseIdx_bag hget
            calc (↑(((dealHands s.players
                  (shuffleArray seeds1 createNewDeck)).2).eraseIdx idx)
                  : Multiset Card)
                + ↑[c]
                + handsBag (dealHands s.players
                    (shuffleArray seeds1 createNewDeck)).1
                = handsBag (dealHands s.players
                    (shuffleArray seeds1 createNewDeck)).1
                  + (↑(((dealHands s.players
                      (shuffleArray seeds1 createNewDeck)).2).eraseIdx idx)
                    + ↑[c]) := by abel
              _ = handsBag (dealHands s.players
                    (shuffleArray seeds1 createNewDeck)).1
                  + ↑((dealHands s.players
                      (shuffleArray seeds1 createNewDeck)).2) := by rw [her]
              _ = ↑(shuffleArray seeds1 createNewDeck) :=
                  dealHands_bag s.players (shuffleArray seeds1 createNewDeck)
              _ = ↑createNewDeck :=
                  Multiset.coe_eq_coe.mpr (shuffleArray_perm seeds1 createNewDeck)
        | none =>
          rw [hpick] at h
          simp only [] at h
          cases hget : (shuffleArray seeds2 ((dealHands s.players
              (shuffleArray seeds1 createNewDeck)).2)).get? 0 with
          | none => rw [hget] at h; simp at h
          | some c =>
            rw [hget] at h
            simp only [] at h
            have hone := validateState_ok_oneTurn h
            have ht := validateState_ok h
            subst ht
            refine ⟨hone, rfl, rfl, ?_⟩
            unfold cardBag
            have hplayers : handsBag (mapIdx0
                (fun idx2 p =>
                  if idx2 = fseed % s.players.length then
                    { p with isCurrentTurn := true }
                  else p)
                (dealHands s.players (shuffleArray seeds1 createNewDeck)).1)
                = handsBag (dealHands s.players
                    (shuffleArray seeds1 createNewDeck)).1 := by
              unfold mapIdx0
              apply handsBag_mapIdxFrom_preserve
              intro i p
              by_cases hi : i = fseed % s.players.length
              · rw [if_pos hi]
              · rw [if_neg hi]
            rw [hplayers]
            have her := eraseIdx_bag hget
            have hperm2 : (↑(shuffleArray seeds2 ((dealHands s.players
                (shuffleArray seeds1 createNewDeck)).2)) : Multiset Card)
                = ↑((dealHands s.players (shuffleArray seeds1 createNewDeck)).2) :=
              Multiset.coe_eq_coe.mpr (shuffleArray_perm seeds2 _)
            calc (↑((shuffleArray seeds2 ((dealHands s.players
                  (shuffleArray seeds1 createNewDeck)).2)).eraseIdx 0)
                  : Multiset Card)
                + ↑[c]
                + handsBag (dealHands s.players
                    (shuffleArray seeds1 createNewDeck)).1
                = handsBag (dealHands s.players
                    (shuffleArray seeds1 createNewDeck)).1
                  + (↑((shuffleArray seeds2 ((dealHands s.players
                      (shuffleArray seeds1 createNewDeck)).2)).eraseIdx 0)
                    + ↑[c]) := by abel
              _ = handsBag (dealHands s.players
                    (shuffleArray seeds1 createNewDeck)).1
                  + ↑(shuffleArray seeds2 ((dealHands s.players
                      (shuffleArray seeds1 createNewDeck)).2)) := by rw [her]
              _ = handsBag (dealHands s.players
                    (shuffleArray seeds1 createNewDeck)).1
                  + ↑((dealHands s.players
                      (shuffleArray seeds1 createNewDeck)).2) := by rw [hperm2]
              _ = ↑(shuffleArray seeds1 createNewDeck) :=
                  dealHands_bag s.players (shuffleArray seeds1 createNewDeck)
              _ = ↑createNewDeck :=
                  Multiset.coe_eq_coe.mpr (shuffleArray_perm seeds1 createNewDeck)
    · rw [if_pos (by simpa using hhost)] at h
      simp at h

theorem getD_of_get? {α : Type} [Inhabited α] :
    ∀ {l : List α} {i : Nat} {a : α}, l.get? i = some a → l.getD i default = a := by
  intro l
  induction l with
  | nil => intro i a h; simp at h
  | cons c t ih =>
    intro i a h
    cases i with
    | zero => simp at h; simp [List.getD, h]
    | succ i =>
      simp only [List.get?] at h
      simpa [List.getD] using ih h

theorem getD_mem {α : Type} [Inhabited α] :
    ∀ {l : List α} {i : Nat}, i < l.length → l.getD i default ∈ l := by
  intro l
  induction l with
  | nil => intro i h; simp at h
  | cons c t ih =>
    intro i h
    cases i with
    | zero => simp [List.getD]
    | succ i =>
      have := ih (show i < t.length by simpa using h)
      simp only [List.getD] at this ⊢
      right
      simpa using this

theorem stepIdx_lt {n : Nat} (d : Int) (i : Nat) (hn : 0 < n) :
    stepIdx n d i < n := by
  unfold stepIdx
  have hne : (n : Int) ≠ 0 := by
    exact_mod_cast Nat.pos_iff_ne_zero.mp hn
  have h1 : 0 ≤ ((i : Int) + d + (n : Int)) % (n : Int) :=
    Int.emod_nonneg _ hne
  have h2 : ((i : Int) + d + (n : Int)) % (n : Int) < (n : Int) :=
    Int.emod_lt_of_pos _ (by exact_mod_cast hn)
  omega

theorem mem_mapIdxFrom {α β : Type} {f : Nat → α → β} :
    ∀ {n : Nat} {l : List α} {b : β}, b ∈ mapIdxFrom f n l →
      ∃ i a, a ∈ l ∧ b = f i a := by
  intro n l
  induction l generalizing n with
  | nil => intro b h; simp [mapIdxFrom] at h
  | cons c t ih =>
    intro b h
    simp only [mapIdxFrom, List.mem_cons] at h
    rcases h with h | h
    · exact ⟨n, c, List.mem_cons_self c t, h⟩
    · obtain ⟨i, a, ha, hb⟩ := ih h
      exact ⟨i, a, List.mem_cons_of_mem c ha, hb⟩

theorem getNextFrom_allConn {st : GameState} (i : Nat)
    (hc : ∀ p ∈ st.players, p.isConnected = true)
    (hn : 0 < st.players.length) :
    getNextPlayerIndexFrom st i = stepIdx st.players.length st.direction i := by
  unfold getNextPlayerIndexFrom
  unfold findConnectedIdx
  rw [if_pos]
  exact hc _ (getD_mem (stepIdx_lt st.direction i hn))

theorem find_filter_perm {hand : List Card} {cid : Nat} {card : Card}
    (hfind : hand.find? (·.id = cid) = some card)
    (hnd : (hand.map (·.id)).Nodup) :
    List.Perm hand (card :: hand.filter (·.id ≠ cid)) := by
  induction hand with
  | nil => simp at hfind
  | cons c t ih =>
    by_cases hc : c.id = cid
    · rw [List.find?_cons_of_pos _ (by simpa using hc)] at hfind
      simp only [Option.some.injEq] at hfind
      subst hfind
      have hnotin : ∀ x ∈ t, x.id ≠ cid := by
        intro x hx hxe
        simp only [List.map_cons, List.nodup_cons] at hnd
        exact hnd.1 (by
          rw [hc, ← hxe]
          exact List.mem_map_of_mem (·.id) hx)
      have hfilter : t.filter (·.id ≠ cid) = t := by
        apply List.filter_eq_self.mpr
        intro a ha
        simpa using hnotin a ha
      rw [List.filter_cons_of_neg (by simpa using hc), hfilter]
    · rw [List.find?_cons_of_neg _ (by simpa using hc)] at hfind
      have hnd2 : (t.map (·.id)).Nodup := by
        simp only [List.map_cons, List.nodup_cons] at hnd
        exact hnd.2
      have hstep := ih hfind hnd2
      rw [List.filter_cons_of_pos (by simpa using hc)]
      exact (hstep.cons c).trans (List.Perm.swap card c _)

theorem hand_ids_nodup_of_bag {s : GameState} {pi : Nat} {pl : Player}
    (hget : s.players.get? pi = some pl)
    (hbag : cardBag s = ↑createNewDeck) :
    (pl.cards.map (·.id)).Nodup := by
  have e1 : (↑(s.deck ++ s.discardPile
      ++ List.flatten (s.players.map (·.cards))) : Multiset Card)
      = cardBag s := by
    unfold cardBag handsBag
    rw [← Multiset.coe_add, ← Multiset.coe_add]
  have hperm : List.Perm
      (s.deck ++ s.discardPile ++ List.flatten (s.players.map (·.cards)))
      createNewDeck :=
    Multiset.coe_eq_coe.mp (e1.trans hbag)
  have hsub : pl.cards.Sublist
      (s.deck ++ s.discardPile ++ List.flatten (s.players.map (·.cards))) :=
    (cards_sublist_join s.players pi pl hget).trans
      (List.sublist_append_right _ _)
  have hbignodup : ((s.deck ++ s.discardPile
      ++ List.flatten (s.players.map (·.cards))).map (·.id)).Nodup := by
    rw [(hperm.map (·.id)).nodup_iff]
    rw [show createNewDeck.map (·.id) = List.range 108 from by decide]
    exact List.nodup_range 108
  exact hbignodup.sublist (hsub.map (·.id))

theorem playCard_ok_shape {s t : GameState} {pid : String} {cid : Nat}
    {col : Option CardColor} (h : playCard s pid cid col = Except.ok t) :
    ∃ pi pl card, s.players.findIdx? (·.id = pid) = some pi
      ∧ s.players.get? pi = some pl ∧ pl.id = pid ∧ pl.isCurrentTurn = true
      ∧ pl.cards.find? (·.id = cid) = some card
      ∧ playCardCore s pid cid col pi card = Except.ok t := by
  unfold playCard at h
  cases hf : s.players.findIdx? (·.id = pid) with
  | none =>
    rw [hf] at h
    simp only [] at h
    split at h <;> simp at h
  | some pi =>
    rw [hf] at h
    simp only [] at h
    obtain ⟨hlt, pl, hget, hpred⟩ := findIdx?_some_facts hf
    have hgetD : s.players.getD pi default = pl := getD_of_get? hget
    rw [hgetD] at h
    by_cases hturn : pl.isCurrentTurn
    · rw [if_neg (by simpa using hturn)] at h
      cases hfind : pl.cards.find? (·.id = cid) with
      | none => rw [hfind] at h; simp at h
      | some card =>
        rw [hfind] at h
        simp only [] at h
        cases htop : s.discardPile.getLast? with
        | none => rw [htop] at h; simp at h
        | some topCard =>
          rw [htop] at h
          simp only [] at h
          split at h
          · simp at h
          · split at h
            · simp at h
            · split at h
              · simp at h
              · split at h
                · simp at h
                · exact ⟨pi, pl, card, rfl, hget,
                    of_decide_eq_true hpred, hturn, hfind, h⟩
    · rw [if_pos (by simpa using hturn)] at h
      split at h <;> simp at h

/-- Action record built by playCard for the play. -/
def playAction (pid : String) (col : Option CardColor) (card : Card) :
    GameAction :=
  { type := ActionType.play, player := pid, card := some card,
    newColor := if isWildCard card then col else none }

/-- Intermediate state built by playCardCore before the turn advance in the
branch where the play does not empty the hand (spelled out for the
inversion lemmas; it is definitionally the record of playCardCore). -/
def playRecord (s : GameState) (pid : String) (cid : Nat)
    (col : Option CardColor) (pi : Nat) (card : Card) : GameState :=
  { s with
    players := mapIdx0
      (fun idx p =>
        if idx = pi then
          { p with
              cards := (s.players.getD pi default).cards.filter (·.id ≠ cid),
              hasCalledUno :=
                if ((s.players.getD pi default).cards.filter
                    (·.id ≠ cid)).length = 1 then
                  (s.players.getD pi default).hasCalledUno
                else false,
              stats := { (s.players.getD pi default).stats with
                cardsPlayed :=
                  (s.players.getD pi default).stats.cardsPlayed + 1,
                specialCardsPlayed :=
                  (s.players.getD pi default).stats.specialCardsPlayed
                    + (if card.type ≠ CardType.number then 1 else 0) } }
        else p)
      s.players,
    currentPlayerIndex :=
      if card.type = CardType.skip then
        getNextPlayerIndexFrom s s.currentPlayerIndex
      else s.currentPlayerIndex,
    direction :=
      if card.type = CardType.reverse then
        (if s.direction = 1 then (-1 : Int) else 1)
      else s.direction,
    discardPile := s.discardPile ++ [card],
    currentColor := if isWildCard card then col.getD card.color else card.color,
    lastPlayedCard := some card,
    winner := none,
    lastAction := some (playAction pid col card),
    actionHistory := (playAction pid col card :: s.actionHistory).take 20,
    pendingCardsToDraw := s.pendingCardsToDraw
      + (if card.type = CardType.draw2 then 2
         else if card.type = CardType.wild4 then 4 else 0),
    mustCallUno :=
      if ((s.players.getD pi default).cards.filter (·.id ≠ cid)).length = 1
          ∧ ¬ (s.players.getD pi default).hasCalledUno then
        some pid
      else none }

theorem playCardCore_cases {s t : GameState} {pid : String} {cid : Nat}
    {col : Option CardColor} {pi : Nat} {card : Card}
    (h : playCardCore s pid cid col pi card = Except.ok t) :
    (((s.players.getD pi default).cards.filter (·.id ≠ cid)).length = 0
       ∧ t.gameStatus = GameStatus.finished ∧ oneTurn t)
    ∨ (((s.players.getD pi default).cards.filter (·.id ≠ cid)).length ≠ 0
       ∧ t = nextTurnPure (playRecord s pid cid col pi card) ∧ oneTurn t) := by
  unfold playCardCore at h
  simp only [] at h
  split at h
  · left
    have hone := validateState_ok_oneTurn h
    have ht := validateState_ok h
    subst ht
    next hlen => exact ⟨hlen, rfl, hone⟩
  · right
    obtain ⟨ht, hone⟩ := bind_validate_nextTurn_ok2 h
    next hlen => exact ⟨hlen, ht, hone⟩

theorem nextTurnPure_lastPlayedCard (s : GameState) :
    (nextTurnPure s).lastPlayedCard = s.lastPlayedCard := rfl

theorem nextTurnPure_direction (s : GameState) :
    (nextTurnPure s).direction = s.direction := rfl

theorem nextTurnPure_currentPlayerIndex (s : GameState) :
    (nextTurnPure s).currentPlayerIndex = getNextPlayerIndex s := rfl

theorem nextTurnPure_pending (s : GameState) :
    (nextTurnPure s).pendingCardsToDraw = s.pendingCardsToDraw := rfl

theorem nextTurnPure_discardPile (s : GameState) :
    (nextTurnPure s).discardPile = s.discardPile := rfl

theorem playRecord_players (s : GameState) (pid : String) (cid : Nat)
    (col : Option CardColor) (pi : Nat) (card : Card) :
    (playRecord s pid cid col pi card).players = mapIdx0
      (fun idx p =>
        if idx = pi then
          { p with
              cards := (s.players.getD pi default).cards.filter (·.id ≠ cid),
              hasCalledUno :=
                if ((s.players.getD pi default).cards.filter
                    (·.id ≠ cid)).length = 1 then
                  (s.players.getD pi default).hasCalledUno
                else false,
              stats := { (s.players.getD pi default).stats with
                cardsPlayed :=
                  (s.players.getD pi default).stats.cardsPlayed + 1,
                specialCardsPlayed :=
                  (s.players.getD pi default).stats.specialCardsPlayed
                    + (if card.type ≠ CardType.number then 1 else 0) } }
        else p)
      s.players := rfl

theorem playRecord_direction (s : GameState) (pid : String) (cid : Nat)
    (col : Option CardColor) (pi : Nat) (card : Card) :
    (playRecord s pid cid col pi card).direction
    = (if card.type = CardType.reverse then
        (if s.direction = 1 then (-1 : Int) else 1)
      else s.direction) := rfl

theorem playRecord_currentPlayerIndex (s : GameState) (pid : String) (cid : Nat)
    (col : Option CardColor) (pi : Nat) (card : Card) :
    (playRecord s pid cid col pi card).currentPlayerIndex
    = (if card.type = CardType.skip then
        getNextPlayerIndexFrom s s.currentPlayerIndex
      else s.currentPlayerIndex) := rfl

theorem playRecord_gameStatus (s : GameState) (pid : String) (cid : Nat)
    (col : Option CardColor) (pi : Nat) (card : Card) :
    (playRecord s pid cid col pi card).gameStatus = s.gameStatus := rfl

theorem playRecord_lastPlayedCard (s : GameState) (pid : String) (cid : Nat)
    (col : Option CardColor) (pi : Nat) (card : Card) :
    (playRecord s pid cid col pi card).lastPlayedCard = some card := rfl

theorem playRecord_settings (s : GameState) (pid : String) (cid : Nat)
    (col : Option CardColor) (pi : Nat) (card : Card) :
    (playRecord s pid cid col pi card).settings = s.settings := rfl

theorem playRecord_players_length (s : GameState) (pid : String) (cid : Nat)
    (col : Option CardColor) (pi : Nat) (card : Card) :
    (playRecord s pid cid col pi card).players.length = s.players.length := by
  rw [playRecord_players]
  unfold mapIdx0
  exact mapIdxFrom_length _ 0 _

theorem playRecord_conn {s : GameState} {pid : String} {cid : Nat}
    {col : Option CardColor} {pi : Nat} {card : Card}
    (hconn : ∀ p ∈ s.players, p.isConnected = true) :
    ∀ p ∈ (playRecord s pid cid col pi card).players, p.isConnected = true := by
  intro p hp
  rw [playRecord_players] at hp
  unfold mapIdx0 at hp
  obtain ⟨i, a, ha, hb⟩ := mem_mapIdxFrom hp
  subst hb
  by_cases hi : i = pi
  · rw [if_pos hi]
    exact hconn a ha
  · rw [if_neg hi]
    exact hconn a ha

theorem playCard_turn {s t : GameState} {pid : String} {cid : Nat}
    {col : Option CardColor} {card : Card}
    (h : playCard s pid cid col = Except.ok t)
    (hconn : ∀ p ∈ s.players, p.isConnected = true)
    (hnf : t.gameStatus ≠ GameStatus.finished)
    (hlp : t.lastPlayedCard = some card) :
    (card.type = CardType.skip →
       t.currentPlayerIndex
         = stepIdx s.players.length s.direction
             (stepIdx s.players.length s.direction s.currentPlayerIndex)
       ∧ t.direction = s.direction)
    ∧ (card.type = CardType.reverse →
       t.direction = (if s.direction = 1 then (-1 : Int) else 1)
       ∧ t.currentPlayerIndex
           = stepIdx s.players.length
               (if s.direction = 1 then (-1 : Int) else 1)
               s.currentPlayerIndex)
    ∧ (card.type ≠ CardType.skip → card.type ≠ CardType.reverse →
       t.currentPlayerIndex
         = stepIdx s.players.length s.direction s.currentPlayerIndex
       ∧ t.direction = s.direction) := by
  obtain ⟨pi, pl, card0, hfidx, hget, hid, hturn, hfind, hcore⟩ :=
    playCard_ok_shape h
  rcases playCardCore_cases hcore with ⟨_, hfin, _⟩ | ⟨hlen, ht, _⟩
  · exact absurd hfin hnf
  · have hc0 : card0 = card := by
      have hl0 : t.lastPlayedCard = some card0 := by
        rw [ht, nextTurnPure_lastPlayedCard, playRecord_lastPlayedCard]
      rw [hl0] at hlp
      simpa using hlp
    subst hc0
    have hn : 0 < s.players.length :=
      Nat.lt_of_le_of_lt (Nat.zero_le _) (findIdx?_some_facts hfidx).1
    have hconn2 := @playRecord_conn s pid cid col pi card0 hconn
    have hlenp := playRecord_players_length s pid cid col pi card0
    have hti : t.currentPlayerIndex
        = getNextPlayerIndexFrom (playRecord s pid cid col pi card0)
            (playRecord s pid cid col pi card0).currentPlayerIndex := by
      rw [ht, nextTurnPure_currentPlayerIndex]
      rfl
    have htd : t.direction = (playRecord s pid cid col pi card0).direction := by
      rw [ht, nextTurnPure_direction]
    have hgn := getNextFrom_allConn
      (playRecord s pid cid col pi card0).currentPlayerIndex hconn2
      (by rw [hlenp]; exact hn)
    rw [hlenp] at hgn
    have hsg := getNextFrom_allConn s.currentPlayerIndex hconn hn
    refine ⟨?_, ?_, ?_⟩
    · intro hty
      have hnrev : card0.type ≠ CardType.reverse := by rw [hty]; decide
      constructor
      · rw [hti, hgn, playRecord_direction, playRecord_currentPlayerIndex,
          if_neg hnrev, if_pos hty, hsg]
      · rw [htd, playRecord_direction, if_neg hnrev]
    · intro hty
      have hnskip : card0.type ≠ CardType.skip := by rw [hty]; decide
      constructor
      · rw [htd, playRecord_direction, if_pos hty]
      · rw [hti, hgn, playRecord_direction, playRecord_currentPlayerIndex,
          if_pos hty, if_neg hnskip]
    · intro hnskip hnrev
      constructor
      · rw [hti, hgn, playRecord_direction, playRecord_currentPlayerIndex,
          if_neg hnrev, if_neg hnskip]
      · rw [htd, playRecord_direction, if_neg hnrev]

theorem playCard_inv {s t : GameState} {pid : String} {cid : Nat}
    {col : Option CardColor} (h : playCard s pid cid col = Except.ok t)
    (hs : deckComplete s) : deckComplete t ∧ oneTurn t := by
  obtain ⟨pi, pl, card0, hfidx, hget, hid, hturn, hfind, hcore⟩ :=
    playCard_ok_shape h
  rcases playCardCore_cases hcore with ⟨_, hfin, hone⟩ | ⟨hlen, ht, hone⟩
  · refine ⟨?_, hone⟩
    intro hp
    rw [hfin] at hp
    simp at hp
  · refine ⟨?_, hone⟩
    intro hp
    have hsp : s.gameStatus = GameStatus.playing := by
      rw [ht, nextTurnPure_gameStatus, playRecord_gameStatus] at hp
      exact hp
    have hbagS := hs hsp
    have hnd := hand_ids_nodup_of_bag hget hbagS
    have hperm := find_filter_perm hfind hnd
    have hplc : (↑pl.cards : Multiset Card)
        = ↑[card0] + ↑(pl.cards.filter (·.id ≠ cid)) := by
      rw [Multiset.coe_add]
      exact Multiset.coe_eq_coe.mpr hperm
    have hgd : s.players.getD pi default = pl := getD_of_get? hget
    have hsetform := playRecord_players s pid cid col pi card0
    simp only [hgd] at hsetform
    rw [mapIdx0_ite_set _ s.players pi pl hget] at hsetform
    generalize hqdef : ({ pl with
        cards := pl.cards.filter (·.id ≠ cid),
        hasCalledUno :=
          if (pl.cards.filter (·.id ≠ cid)).length = 1 then
            pl.hasCalledUno
          else false,
        stats := { pl.stats with
          cardsPlayed := pl.stats.cardsPlayed + 1,
          specialCardsPlayed := pl.stats.specialCardsPlayed
            + (if card0.type ≠ CardType.number then 1 else 0) } } : Player)
      = q at hsetform
    have hqcards : q.cards = pl.cards.filter (·.id ≠ cid) := by
      rw [← hqdef]
    have hbagH := handsBag_set s.players pi pl q hget
    have hupd : handsBag (s.players.set pi q) + ↑[card0]
        = handsBag s.players := by
      apply add_right_cancel
        (b := (↑(pl.cards.filter (·.id ≠ cid)) : Multiset Card))
      calc handsBag (s.players.set pi q) + ↑[card0]
            + ↑(pl.cards.filter (·.id ≠ cid))
          = handsBag (s.players.set pi q) + ↑pl.cards := by
            rw [hplc]
            abel
        _ = handsBag s.players + ↑q.cards := hbagH
        _ = handsBag s.players + ↑(pl.cards.filter (·.id ≠ cid)) := by
            rw [hqcards]
    have hfinal : cardBag (playRecord s pid cid col pi card0) = cardBag s := by
      unfold cardBag
      rw [hsetform]
      rw [show (playRecord s pid cid col pi card0).deck = s.deck from rfl]
      rw [show (playRecord s pid cid col pi card0).discardPile
          = s.discardPile ++ [card0] from rfl]
      rw [← Multiset.coe_add]
      calc (↑s.deck : Multiset Card) + (↑s.discardPile + ↑[card0])
            + handsBag (s.players.set pi q)
          = ↑s.deck + ↑s.discardPile
            + (handsBag (s.players.set pi q) + ↑[card0]) := by abel
        _ = ↑s.deck + ↑s.discardPile + handsBag s.players := by rw [hupd]
    rw [ht, nextTurnPure_cardBag, hfinal]
    exact hbagS

/-- One successful public operation of the GameService, relating the state
it was invoked on to the state it returns. -/
inductive Step : GameState → GameState → Prop where
  | addPlayer (s t : GameState) (pid pname : String)
      (h : addPlayer s pid pname = Except.ok t) : Step s t
  | removePlayer (s t : GameState) (pid : String)
      (h : removePlayer s pid = Except.ok t) : Step s t
  | setPlayerReady (s t : GameState) (pid : String) (r : Bool)
      (h : setPlayerReady s pid r = Except.ok t) : Step s t
  | startGame (s t : GameState) (pid : String) (seeds1 seeds2 : List Nat)
      (fseed : Nat) (h : startGame s pid seeds1 seeds2 fseed = Except.ok t) :
      Step s t
  | playCard (s t : GameState) (pid : String) (cid : Nat)
      (col : Option CardColor) (h : playCard s pid cid col = Except.ok t) :
      Step s t
  | drawCards (s t : GameState) (pid : String) (seeds : List Nat)
      (h : drawCards s pid seeds = Except.ok t) : Step s t
  | drawUntilMatch (s t : GameState) (pid : String) (seedss : List (List Nat))
      (h : drawUntilMatch s pid seedss = Except.ok t) : Step s t
  | skipTurn (s t : GameState) (pid : String)
      (h : skipTurn s pid = Except.ok t) : Step s t
  | challengeWildFour (s t : GameState) (cgr cgd : String) (seeds : List Nat)
      (h : challengeWildFour s cgr cgd seeds = Except.ok t) : Step s t

/-- States reachable through the GameService: a room is created by
createGame and then evolves by successful operations only. -/
inductive Reach : GameState → Prop where
  | created (hid hname : String) (st : GameSettings) (t : GameState)
      (h : createGame hid hname st = Except.ok t) : Reach t
  | step (s t : GameState) (hs : Reach s) (hst : Step s t) : Reach t

theorem step_deckComplete {s t : GameState} (hst : Step s t)
    (hs : deckComplete s) : deckComplete t := by
  cases hst with
  | addPlayer pid pname h =>
    obtain ⟨hw, ht, _⟩ := addPlayer_ok_shape h
    intro hp
    rw [ht] at hp
    simp only [] at hp
    rw [hw] at hp
    simp at hp
  | setPlayerReady pid r h =>
    obtain ⟨hw, ht, _⟩ := setPlayerReady_ok_shape h
    intro hp
    rw [ht] at hp
    simp only [] at hp
    rw [hw] at hp
    simp at hp
  | removePlayer pid h =>
    obtain ⟨_, pi, hf, hcases⟩ := removePlayer_ok_shape h
    rcases hcases with ⟨hplay, hforms⟩ | ⟨hnplay, ht⟩
    · intro _
      have hbag := hs hplay
      have hpres : handsBag (s.players.map (fun p =>
          if p.id = pid then { p with isConnected := false } else p))
          = handsBag s.players := by
        apply handsBag_map_preserve
        intro p
        by_cases hp : p.id = pid
        · rw [if_pos hp]
        · rw [if_neg hp]
      rcases hforms with ht | ht <;> rw [ht]
      · rw [nextTurnPure_cardBag]
        show (↑s.deck : Multiset Card) + ↑s.discardPile + handsBag _
          = ↑createNewDeck
        rw [hpres]
        exact hbag
      · show (↑s.deck : Multiset Card) + ↑s.discardPile + handsBag _
          = ↑createNewDeck
        rw [hpres]
        exact hbag
    · intro hp
      rw [ht] at hp
      simp only [] at hp
      exact absurd hp hnplay
  | startGame pid seeds1 seeds2 fseed h =>
    obtain ⟨_, _, _, _, _, hbag⟩ := startGame_ok_shape h
    intro _
    exact hbag
  | playCard pid cid col h =>
    exact (playCard_inv h hs).1
  | drawCards pid seeds h =>
    obtain ⟨_, hcore, _⟩ := drawCards_ok_shape h
    obtain ⟨hbag, hgs, _⟩ := handleCardDraw_bag hcore
    intro hp
    rw [hgs] at hp
    rw [hbag]
    exact hs hp
  | drawUntilMatch pid seedss h =>
    obtain ⟨_, hbag, hgs, _⟩ := drawUntilMatch_inv h
    intro hp
    rw [hgs] at hp
    rw [hbag]
    exact hs hp
  | skipTurn pid h =>
    obtain ⟨_, ht, _⟩ := skipTurn_ok_shape h
    intro hp
    rw [ht] at hp
    rw [nextTurnPure_gameStatus] at hp
    simp only [] at hp
    rw [ht, nextTurnPure_cardBag]
    show (↑s.deck : Multiset Card) + ↑s.discardPile + handsBag s.players
      = ↑createNewDeck
    exact hs hp
  | challengeWildFour cgr cgd seeds h =>
    obtain ⟨_, hbag, hgs, _⟩ := challengeWildFour_inv h
    intro hp
    rw [hgs] at hp
    rw [hbag]
    exact hs hp

theorem step_oneTurn {s t : GameState} (hst : Step s t) : oneTurn t := by
  cases hst with
  | addPlayer pid pname h => exact (addPlayer_ok_shape h).2.2
  | setPlayerReady pid r h => exact (setPlayerReady_ok_shape h).2.2
  | removePlayer pid h => exact (removePlayer_ok_shape h).1
  | startGame pid seeds1 seeds2 fseed h =>
    exact (startGame_ok_shape h).2.2.1
  | playCard pid cid col h =>
    obtain ⟨pi, pl, card0, _, _, _, _, _, hcore⟩ := playCard_ok_shape h
    rcases playCardCore_cases hcore with ⟨_, _, hone⟩ | ⟨_, _, hone⟩ <;>
      exact hone
  | drawCards pid seeds h => exact (drawCards_ok_shape h).2.2
  | drawUntilMatch pid seedss h => exact (drawUntilMatch_inv h).1
  | skipTurn pid h => exact (skipTurn_ok_shape h).2.2
  | challengeWildFour cgr cgd seeds h =>
    exact (challengeWildFour_inv h).1

theorem reach_deckComplete {s : GameState} (h : Reach s) : deckComplete s := by
  induction h with
  | created hid hname st t hc =>
    intro hp
    unfold createGame at hc
    have ht := validateState_ok hc
    rw [ht] at hp
    simp [createInitialGameState] at hp
  | step s t hs hst ih => exact step_deckComplete hst ih

theorem reach_oneTurn {s : GameState} (h : Reach s) : oneTurn s := by
  cases h with
  | created hid hname st t hc =>
    unfold createGame at hc
    exact validateState_ok_oneTurn hc
  | step s t hs hst => exact step_oneTurn hst

theorem decide_eq_beq {α : Type} [DecidableEq α] [BEq α] [LawfulBEq α]
    (a b : α) : decide (a = b) = (a == b) := by
  cases h : a == b
  · simp only [decide_eq_false_iff_not]
    intro he
    subst he
    rw [BEq.refl] at h
    cases h
  · simp only [decide_eq_true_eq]
    exact eq_of_beq h

/-- C7 counterexample input: noBluffing settings under which canPlayOnTop
rejects a wild-draw-four outright. -/
def noBluffSettings : GameSettings :=
  { getDefaultGameSettings with noBluffing := true }

/-- C7: the claim states the pure play-legality predicate returns true for
every wild and wild-draw-four card; canPlayOnTop, the predicate playCard
consults, instead returns false for a wild-draw-four when noBluffing is
set. -/
theorem C7_counterexample :
    canPlayOnTop
      { id := 101, color := CardColor.black, type := CardType.wild4,
        points := 50 }
      { id := 0, color := CardColor.red, type := CardType.number,
        value := some 0, points := 0 }
      CardColor.red noBluffSettings = false := by decide

/-- C7 (amended): GameRuleValidator.canPlayCard satisfies exactly the
claimed characterization — true for every wild and wild-draw-four, and for
non-wild cards true exactly when the color matches the active color, or the
card is an action card of the same kind as the top card, or a number card
with the same value as a number top card; canPlayOnTop agrees with it
except that it returns false for a wild-draw-four when settings.noBluffing
is set. -/
theorem C7_legality : ∀ (card topCard : Card) (color : CardColor)
    (st : GameSettings),
    (canPlayCard card topCard color st = true ↔
      (card.type = CardType.wild ∨ card.type = CardType.wild4
        ∨ card.color = color
        ∨ (card.type = CardType.number ∧ topCard.type = CardType.number
            ∧ card.value = topCard.value)
        ∨ (card.type ≠ CardType.number ∧ card.type = topCard.type)))
    ∧ canPlayOnTop card topCard color st
      = (if st.noBluffing = true ∧ card.type = CardType.wild4 then false
         else canPlayCard card topCard color st) := by
  intro card topCard color st
  rcases card with ⟨i1, c1, t1, v1, p1⟩
  rcases topCard with ⟨i2, c2, t2, v2, p2⟩
  constructor
  · cases t1 <;> cases t2 <;>
      by_cases hc : c1 = color <;>
        simp [canPlayCard, hc]
  · cases hb : st.noBluffing <;> cases t1 <;> cases t2 <;>
      by_cases hc : c1 = color <;>
        simp [canPlayCard, canPlayOnTop, isWildCard, hc, hb, decide_eq_beq]

/-- Low-equivalence for a recipient: the claim hypothesis that two states
differ only in the contents of hands of players other than the recipient
(hand sizes equal) and in the contents of the draw pile (size equal). -/
def handLowEquiv (rid : String) (st1 st2 : TestGameState) : Prop :=
  st1.roomCode = st2.roomCode
  ∧ st1.currentPlayerIndex = st2.currentPlayerIndex
  ∧ st1.direction = st2.direction
  ∧ st1.deck.length = st2.deck.length
  ∧ st1.discardPile = st2.discardPile
  ∧ st1.currentColor = st2.currentColor
  ∧ st1.lastPlayedCard = st2.lastPlayedCard
  ∧ st1.gameStatus = st2.gameStatus
  ∧ List.Forall₂ (fun p q => p.id = q.id ∧ p.username = q.username
      ∧ p.isHost = q.isHost ∧ p.hand.length = q.hand.length
      ∧ (p.id = rid → p.hand = q.hand)) st1.players st2.players

theorem map_congr_forall2 {α β : Type} {R : α → α → Prop} {f : α → β}
    {l1 l2 : List α} (h : List.Forall₂ R l1 l2)
    (hf : ∀ a b, R a b → f a = f b) : l1.map f = l2.map f := by
  induction h with
  | nil => rfl
  | cons hr _ ih => simp [List.map, hf _ _ hr, ih]

/-- C9: the public view contains no card of any player other than the
recipient (their hands collapse to counts), and two states that differ only
in another player hand of equal size and in the draw pile contents of equal
size produce identical views for the recipient. -/
theorem C9_redaction :
    (∀ (st : TestGameState) (rid : String) (e : PublicPlayer),
      e ∈ (getPublicGameState st rid).players → e.id ≠ rid →
      ∃ n, e.hand = HandView.count n)
    ∧ (∀ (rid : String) (st1 st2 : TestGameState),
      handLowEquiv rid st1 st2 →
      getPublicGameState st1 rid = getPublicGameState st2 rid) := by
  constructor
  · intro st rid e he hne
    unfold getPublicGameState at he
    simp only [List.mem_map] at he
    obtain ⟨p, hp, hpe⟩ := he
    subst hpe
    simp only [] at hne ⊢
    rw [if_neg (by simpa using hne)]
    exact ⟨p.hand.length, rfl⟩
  · intro rid st1 st2 hlow
    obtain ⟨h1, h2, h3, h4, h5, h6, h7, h8, h9⟩ := hlow
    unfold getPublicGameState
    rw [h1, h2, h3, h4, h5, h6, h7, h8]
    have hmap : st1.players.map (fun player =>
        ({ id := player.id, username := player.username,
           hand := if player.id = rid then HandView.cards player.hand
                   else HandView.count player.hand.length,
           isHost := player.isHost } : PublicPlayer))
        = st2.players.map (fun player =>
        ({ id := player.id, username := player.username,
           hand := if player.id = rid then HandView.cards player.hand
                   else HandView.count player.hand.length,
           isHost := player.isHost } : PublicPlayer)) := by
      apply map_congr_forall2 h9
      intro p q hr
      obtain ⟨hid, hun, hh, hlen, hhand⟩ := hr
      by_cases hrec : p.id = rid
      · have hq : q.id = rid := hid ▸ hrec
        rw [hun, hh, hhand hrec, hrec, hq]
      · rw [if_neg hrec, if_neg (hid ▸ hrec), hid, hun, hh, hlen]
    rw [hmap]

/-- C10: for every state whose status is not playing (finished included),
removePlayer removes an existing player from the list entirely, and when the
removed player was the host and players remain, the first remaining player
becomes the host while the rest of the list is unchanged. -/
theorem C10_removePlayer : ∀ (s t : GameState) (pid : String),
    s.gameStatus ≠ GameStatus.playing →
    removePlayer s pid = Except.ok t →
    t.players.map (·.id) = (s.players.filter (·.id ≠ pid)).map (·.id)
    ∧ pid ∉ t.players.map (·.id)
    ∧ (∀ pi, s.players.findIdx? (·.id = pid) = some pi →
        ((s.players.getD pi default).isHost = true →
          ∀ q qs, s.players.filter (·.id ≠ pid) = q :: qs →
            t.players = { q with isHost := true } :: qs)
        ∧ (¬ ((s.players.getD pi default).isHost
              ∧ (s.players.filter (·.id ≠ pid)).length > 0) →
            t.players = s.players.filter (·.id ≠ pid))) := by
  intro s t pid hnp h
  obtain ⟨_, pi, hf, hcases⟩ := removePlayer_ok_shape h
  rcases hcases with ⟨hplay, _⟩ | ⟨_, ht⟩
  · exact absurd hplay hnp
  · have hplayers : t.players =
        (if (s.players.getD pi default).isHost
            ∧ (s.players.filter (·.id ≠ pid)).length > 0 then
          mapIdx0
            (fun idx p => if idx = 0 then { p with isHost := true } else p)
            (s.players.filter (·.id ≠ pid))
        else s.players.filter (·.id ≠ pid)) := by
      rw [ht]
    have hids : t.players.map (·.id)
        = (s.players.filter (·.id ≠ pid)).map (·.id) := by
      rw [hplayers]
      by_cases hcond : (s.players.getD pi default).isHost
          ∧ (s.players.filter (·.id ≠ pid)).length > 0
      · rw [if_pos hcond]
        unfold mapIdx0
        apply mapIdxFrom_map_proj
        intro i p
        by_cases hi : i = 0
        · rw [if_pos hi]
        · rw [if_neg hi]
      · rw [if_neg hcond]
    refine ⟨hids, ?_, ?_⟩
    · rw [hids]
      intro hmem
      simp only [List.mem_map] at hmem
      obtain ⟨q, hq, hqid⟩ := hmem
      have := List.of_mem_filter hq
      simp at this
      exact this hqid
    · intro pi2 hf2
      rw [hf] at hf2
      simp only [Option.some.injEq] at hf2
      subst hf2
      constructor
      · intro hhost q qs hfq
        have hcond : (s.players.getD pi default).isHost
            ∧ (s.players.filter (·.id ≠ pid)).length > 0 := by
          refine ⟨hhost, ?_⟩
          rw [hfq]
          simp
        rw [hplayers, if_pos hcond, hfq]
        show mapIdxFrom _ 0 (q :: qs) = _
        unfold mapIdxFrom
        rw [if_pos rfl]
        rw [mapIdxFrom_ite_lt _ 1 qs (by omega)]
      · intro hcond
        rw [hplayers, if_neg hcond]

theorem validateState_error {x : GameState} {e : GameError}
    (h : validateState x = Except.error e) :
    e = GameError.invalidTurnCount ∨ e = GameError.noHost := by
  unfold validateState at h
  split at h
  · simp only [Except.error.injEq] at h
    exact Or.inl h.symm
  · split at h
    · simp only [Except.error.injEq] at h
      exact Or.inr h.symm
    · simp at h

/-- C4 (amended): startGame fails with NotHost exactly when the initiator is
missing or not the host; given a host initiator it fails with
NotEnoughReady exactly when fewer than minPlayers - 1 players are ready
(not minPlayers as the claim stated, and presence is not checked: the
validator canStartGame is never consulted), so a lone ready host starts a
game alone under minPlayers = 2. -/
theorem C4_startGameErrors : ∀ (s : GameState) (pid : String)
    (seeds1 seeds2 : List Nat) (fseed : Nat),
    ((startGame s pid seeds1 seeds2 fseed = Except.error GameError.notHost)
      ↔ (match s.players.find? (·.id = pid) with
         | some p => p.isHost = false
         | none => True))
    ∧ ((∃ p, s.players.find? (·.id = pid) = some p ∧ p.isHost = true) →
       ((startGame s pid seeds1 seeds2 fseed
           = Except.error GameError.notEnoughReady)
         ↔ (s.players.filter (·.isReady)).length
             < s.settings.minPlayers - 1)) := by
  intro s pid seeds1 seeds2 fseed
  constructor
  · cases hf : s.players.find? (·.id = pid) with
    | none =>
      constructor
      · intro _
        simp
      · intro _
        unfold startGame
        rw [hf]
    | some p =>
      constructor
      · intro hc
        simp only []
        unfold startGame at hc
        rw [hf] at hc
        simp only [] at hc
        by_cases hhost : p.isHost
        · rw [if_neg (by simpa using hhost)] at hc
          by_cases hready : (s.players.filter (·.isReady)).length
              < s.settings.minPlayers - 1
          · rw [if_pos hready] at hc
            simp at hc
          · rw [if_neg hready] at hc
            split at hc
            · simp at hc
            · rcases validateState_error hc with he | he <;> simp at he
        · exact Bool.not_eq_true p.isHost ▸ hhost
      · intro hm
        simp only [] at hm
        unfold startGame
        rw [hf]
        simp only []
        rw [if_pos (by simp [hm])]
  · intro hex
    obtain ⟨p, hp, hhost⟩ := hex
    constructor
    · intro hc
      unfold startGame at hc
      rw [hp] at hc
      simp only [] at hc
      rw [if_neg (by simpa using hhost)] at hc
      by_cases hready : (s.players.filter (·.isReady)).length
          < s.settings.minPlayers - 1
      · exact hready
      · rw [if_neg hready] at hc
        split at hc
        · simp at hc
        · rcases validateState_error hc with he | he <;> simp at he
    · intro hready
      unfold startGame
      rw [hp]
      simp only []
      rw [if_neg (by simpa using hhost), if_pos hready]

/-- Payload of a successful operation (the error case never occurs at the
concrete inputs on which this is used). -/
def exOk (e : Except GameError GameState) : GameState :=
  match e with
  | Except.ok s => s
  | Except.error _ => createInitialGameState "" ""

/-- Freshly created waiting room with host a. -/
def w1 : GameState := exOk (createGame "a" "alice" getDefaultGameSettings)

/-- Room after player b joined. -/
def w2 : GameState := exOk (addPlayer w1 "b" "bob")

/-- Room after player b readied up. -/
def w3 : GameState := exOk (setPlayerReady w2 "b" true)

/-- Playing state reached by startGame with identity shuffles and first
player a. -/
def wP : GameState := exOk (startGame w3 "a" [] [] 0)

theorem reach_wP : Reach wP := by
  apply Reach.step w3 wP
  · apply Reach.step w2 w3
    · apply Reach.step w1 w2
      · exact Reach.created "a" "alice" getDefaultGameSettings w1 (by decide)
      · exact Step.addPlayer w1 w2 "b" "bob" (by decide)
    · exact Step.setPlayerReady w2 w3 "b" true (by decide)
  · exact Step.startGame w3 wP "a" [] [] 0 (by decide)

/-- Content of the deck array of the input snapshot after a call into
handleCardDraw: the source runs `deck.splice(0, cardsToDraw)`, which removes
the first cardsToDraw elements in place from the array object it is called
on; when the reshuffle branch is not taken that object is the deck array of
the input snapshot itself (GameStateManager.getState returns a frozen
shallow copy whose nested arrays are shared), so after the call the prior
snapshot's deck field holds the remaining suffix. In the reshuffle branch a
fresh array is spliced and the input snapshot's array is untouched. -/
def deckArrayAfterDraw (s : GameState) (cardsToDraw : Nat) : List Card :=
  if s.deck.length < cardsToDraw then s.deck
  else s.deck.drop cardsToDraw

/-- C1: drawCards succeeds on the reachable playing state wP, the new
snapshot's deck is exactly the mutated content of the prior snapshot's deck
array, and that content differs from the deck the prior snapshot held
before the call: the operation mutates the state snapshot it was invoked
on. -/
theorem C1_spliceMutation :
    (drawCards wP "a" []).isOk = true
    ∧ (exOk (drawCards wP "a" [])).deck = deckArrayAfterDraw wP 1
    ∧ deckArrayAfterDraw wP 1 ≠ wP.deck := by decide

/-- C4 counterexample state: the lone host, ready, under default settings
with minPlayers = 2. -/
def c4state : GameState := exOk (setPlayerReady w1 "a" true)

/-- C4: the claim says a lone host calling startGame with minPlayers = 2
always fails with NotEnoughReady; a lone ready host succeeds. -/
theorem C4_counterexample :
    c4state.settings.minPlayers = 2
    ∧ c4state.players.length = 1
    ∧ setPlayerReady w1 "a" true = Except.ok c4state
    ∧ (startGame c4state "a" [] [] 0).isOk = true := by decide

theorem C4_startGameErrors_witness :
    startGame w1 "a" [] [] 0 = Except.error GameError.notEnoughReady :=
  ((C4_startGameErrors w1 "a" [] [] 0).2
    ⟨freshPlayer "a" "alice" true, by decide, by decide⟩).mpr (by decide)

/-- C2: in every reachable playing state the multiset of draw pile, discard
pile and all hands is exactly one full deck; every successful operation
preserves this; and createNewDeck has the claimed 108-card composition. -/
theorem C2_deckConservation :
    (∀ s, Reach s → s.gameStatus = GameStatus.playing →
      (↑s.deck : Multiset Card) + ↑s.discardPile + handsBag s.players
        = ↑createNewDeck)
    ∧ (∀ s t, Step s t → deckComplete s → deckComplete t)
    ∧ createNewDeck.length = 108
    ∧ (∀ col ∈ [CardColor.red, CardColor.blue, CardColor.green,
        CardColor.yellow],
        (createNewDeck.filter (fun c => c.color = col
          ∧ c.type = CardType.number ∧ c.value = some 0)).length = 1
        ∧ (∀ v ∈ List.range 9, (createNewDeck.filter (fun c => c.color = col
            ∧ c.type = CardType.number ∧ c.value = some (v + 1))).length = 2)
        ∧ (createNewDeck.filter (fun c => c.color = col
            ∧ c.type = CardType.skip)).length = 2
        ∧ (createNewDeck.filter (fun c => c.color = col
            ∧ c.type = CardType.reverse)).length = 2
        ∧ (createNewDeck.filter (fun c => c.color = col
            ∧ c.type = CardType.draw2)).length = 2)
    ∧ (createNewDeck.filter (·.type = CardType.wild)).length = 4
    ∧ (createNewDeck.filter (·.type = CardType.wild4)).length = 4 := by
  refine ⟨?_, ?_, by decide, by decide, by decide, by decide⟩
  · intro s h hp
    exact reach_deckComplete h hp
  · intro s t hst hs
    exact step_deckComplete hst hs

theorem C2_deckConservation_witness :
    (↑wP.deck : Multiset Card) + ↑wP.discardPile + handsBag wP.players
      = ↑createNewDeck :=
  C2_deckConservation.1 wP reach_wP (by decide)

/-- C3: every reachable playing state with at least one connected player has
exactly one player on turn, and every successful operation preserves the
single-turn invariant. -/
theorem C3_singleCurrentTurn :
    (∀ s, Reach s → s.gameStatus = GameStatus.playing →
      1 ≤ (s.players.filter (·.isConnected)).length →
      s.players.countP (·.isCurrentTurn) = 1)
    ∧ (∀ s t, Step s t →
        (s.gameStatus = GameStatus.playing →
          s.players.countP (·.isCurrentTurn) = 1) →
        (t.gameStatus = GameStatus.playing →
          t.players.countP (·.isCurrentTurn) = 1)) := by
  refine ⟨?_, ?_⟩
  · intro s h hp _
    exact reach_oneTurn h hp
  · intro s t hst _ hp
    exact step_oneTurn hst hp

theorem C3_singleCurrentTurn_witness :
    wP.players.countP (·.isCurrentTurn) = 1 :=
  C3_singleCurrentTurn.1 wP reach_wP (by decide) (by decide)

/-- C5 (amended): after a successful playCard that does not end the game,
with all players connected, the turn advances one step in the current
direction for any non-skip non-reverse card, two steps for a skip, and for
a reverse the direction flips before the single advancing step — so with
exactly two players a reverse passes the turn to the other player rather
than acting as a skip. -/
theorem C5_turnAdvance : ∀ (s t : GameState) (pid : String) (cid : Nat)
    (col : Option CardColor) (card : Card),
    playCard s pid cid col = Except.ok t →
    (∀ p ∈ s.players, p.isConnected = true) →
    t.gameStatus ≠ GameStatus.finished →
    t.lastPlayedCard = some card →
    (card.type = CardType.skip →
       t.currentPlayerIndex
         = stepIdx s.players.length s.direction
             (stepIdx s.players.length s.direction s.currentPlayerIndex)
       ∧ t.direction = s.direction)
    ∧ (card.type = CardType.reverse →
       t.direction = (if s.direction = 1 then (-1 : Int) else 1)
       ∧ t.currentPlayerIndex
           = stepIdx s.players.length
               (if s.direction = 1 then (-1 : Int) else 1)
               s.currentPlayerIndex)
    ∧ (card.type ≠ CardType.skip → card.type ≠ CardType.reverse →
       t.currentPlayerIndex
         = stepIdx s.players.length s.direction s.currentPlayerIndex
       ∧ t.direction = s.direction) := by
  intro s t pid cid col card h hconn hnf hlp
  exact playCard_turn h hconn hnf hlp

/-- Reverse card of the two-player reverse scenario. -/
def redReverseCard : Card :=
  { id := 200, color := CardColor.red, type := CardType.reverse, points := 20 }

/-- Extra red number card in the reversing player hand. -/
def redFiveCard : Card :=
  { id := 201, color := CardColor.red, type := CardType.number,
    value := some 5, points := 5 }

/-- Card held by the second player. -/
def blueThreeCard : Card :=
  { id := 202, color := CardColor.blue, type := CardType.number,
    value := some 3, points := 3 }

/-- Top of the discard pile in the scenario. -/
def redTwoCard : Card :=
  { id := 204, color := CardColor.red, type := CardType.number,
    value := some 2, points := 2 }

/-- Two-player playing state where the player on turn holds a reverse. -/
def cw : GameState :=
  { players :=
      [ { (freshPlayer "a" "alice" true) with
            cards := [redReverseCard, redFiveCard],
            isCurrentTurn := true, isReady := true },
        { (freshPlayer "b" "bob" false) with
            cards := [blueThreeCard],
            isReady := true } ],
    currentPlayerIndex := 0, direction := 1, deck := [],
    discardPile := [redTwoCard],
    currentColor := CardColor.red,
    lastPlayedCard := some redTwoCard,
    gameStatus := GameStatus.playing, currentRound := 1,
    rounds := [{ roundNumber := 1, firstPlayer := "a" }],
    actionHistory := [], drawPileCount := 0, pendingCardsToDraw := 0,
    settings := getDefaultGameSettings }

/-- C5: with exactly 2 connected players, a successful reverse play moves
the turn to the other player (index 1), while the claim says the player who
played the reverse keeps the turn. -/
theorem C5_counterexample :
    cw.players.length = 2
    ∧ cw.currentPlayerIndex = 0
    ∧ (∀ p ∈ cw.players, p.isConnected = true)
    ∧ playCard cw "a" 200 none = Except.ok (exOk (playCard cw "a" 200 none))
    ∧ (exOk (playCard cw "a" 200 none)).gameStatus = GameStatus.playing
    ∧ (exOk (playCard cw "a" 200 none)).lastPlayedCard = some redReverseCard
    ∧ redReverseCard.type = CardType.reverse
    ∧ (exOk (playCard cw "a" 200 none)).currentPlayerIndex = 1 := by decide

theorem C5_turnAdvance_witness :
    (exOk (playCard cw "a" 200 none)).direction
      = (if cw.direction = 1 then (-1 : Int) else 1)
    ∧ (exOk (playCard cw "a" 200 none)).currentPlayerIndex
      = stepIdx cw.players.length (if cw.direction = 1 then (-1 : Int) else 1)
          cw.currentPlayerIndex :=
  (C5_turnAdvance cw (exOk (playCard cw "a" 200 none)) "a" 200 none
    redReverseCard (by decide) (by decide) (by decide) (by decide)).2.1
    (by decide)

theorem get?_mapIdxFrom {α β : Type} {f : Nat → α → β} :
    ∀ (n : Nat) (l : List α) (k : Nat),
      (mapIdxFrom f n l).get? k = (l.get? k).map (f (n + k)) := by
  intro n l
  induction l generalizing n with
  | nil => intro k; simp [mapIdxFrom]
  | cons c t ih =>
    intro k
    cases k with
    | zero => simp [mapIdxFrom]
    | succ k =>
      simp only [mapIdxFrom, List.get?]
      rw [ih (n + 1) k]
      have : n + (k + 1) = (n + 1) + k := by omega
      rw [this]

theorem shuffleArray_length {α : Type} (seeds : List Nat) (l : List α) :
    (shuffleArray seeds l).length = l.length :=
  (shuffleArray_perm seeds l).length_eq

/-- C8 (amended): on any playing state, a successful drawCards adds exactly
max(pendingCardsToDraw, 1) cards to the hand of the player on turn whenever
the draw pile together with the reshufflable part of the discard pile (all
but its top card) holds that many cards (with fewer available, only the
available cards are added); it always resets pendingCardsToDraw to 0 and
preserves the top discard card, and when the draw pile alone was short the
discard pile shrinks to just its top card, its remainder having moved into
the draw pile. -/
theorem C8_drawCards : ∀ (s t : GameState) (pid : String) (seeds : List Nat),
    s.gameStatus = GameStatus.playing →
    drawCards s pid seeds = Except.ok t →
    ∃ pi pl pl2,
      s.players.findIdx? (·.id = pid) = some pi
      ∧ s.players.get? pi = some pl
      ∧ t.players.get? pi = some pl2 ∧ pl2.id = pl.id
      ∧ (max s.pendingCardsToDraw 1
            ≤ s.deck.length + (s.discardPile.length - 1) →
          pl2.cards.length = pl.cards.length + max s.pendingCardsToDraw 1)
      ∧ t.pendingCardsToDraw = 0
      ∧ t.discardPile.getLast? = s.discardPile.getLast?
      ∧ (max s.pendingCardsToDraw 1
            ≤ s.deck.length + (s.discardPile.length - 1) →
         s.deck.length < max s.pendingCardsToDraw 1 →
          t.discardPile.length = 1
          ∧ t.deck.length + max s.pendingCardsToDraw 1
              = s.deck.length + (s.discardPile.length - 1)) := by
  intro s t pid seeds hplay h
  obtain ⟨_, hcore, _⟩ := drawCards_ok_shape h
  have hn0 : (if s.pendingCardsToDraw > 0 then s.pendingCardsToDraw else 1)
      = max s.pendingCardsToDraw 1 := by
    by_cases hp : s.pendingCardsToDraw > 0
    · rw [if_pos hp]
      omega
    · rw [if_neg hp]
      omega
  rw [hn0] at hcore
  obtain ⟨pi, pl, hfi, hget, hplid, hforms⟩ := handleCardDraw_ok_shape hcore
  have hsrcLen : max s.pendingCardsToDraw 1
        ≤ s.deck.length + (s.discardPile.length - 1) →
      max s.pendingCardsToDraw 1
        ≤ (drawSource s (max s.pendingCardsToDraw 1) seeds).length := by
    intro havail
    unfold drawSource
    by_cases hR : s.deck.length < max s.pendingCardsToDraw 1
    · rw [if_pos hR]
      rw [List.length_append, shuffleArray_length, List.length_dropLast]
      exact havail
    · rw [if_neg hR]
      omega
  have hnsget : (handleCardDrawState s pid (max s.pendingCardsToDraw 1) seeds
      pi).players.get? pi = some (drawUpd s (max s.pendingCardsToDraw 1) seeds pl) := by
    rw [handleCardDrawState_players]
    unfold mapIdx0
    rw [get?_mapIdxFrom 0 s.players pi, hget]
    simp
  have hlenUpd : ∀ havail : max s.pendingCardsToDraw 1
        ≤ s.deck.length + (s.discardPile.length - 1),
      (drawUpd s (max s.pendingCardsToDraw 1) seeds pl).cards.length
        = pl.cards.length + max s.pendingCardsToDraw 1 := by
    intro havail
    unfold drawUpd
    simp only [List.length_append, List.length_take]
    have := hsrcLen havail
    omega
  have hdiscTop : (handleCardDrawState s pid (max s.pendingCardsToDraw 1)
      seeds pi).discardPile.getLast? = s.discardPile.getLast? := by
    rw [handleCardDrawState_discardPile]
    by_cases hR : s.deck.length < max s.pendingCardsToDraw 1
    · rw [if_pos hR]
      cases hL : s.discardPile.getLast? with
      | some last => rfl
      | none => rfl
    · rw [if_neg hR]
  have hreshuffle : max s.pendingCardsToDraw 1
        ≤ s.deck.length + (s.discardPile.length - 1) →
      s.deck.length < max s.pendingCardsToDraw 1 →
      (handleCardDrawState s pid (max s.pendingCardsToDraw 1)
          seeds pi).discardPile.length = 1
      ∧ (handleCardDrawState s pid (max s.pendingCardsToDraw 1)
          seeds pi).deck.length + max s.pendingCardsToDraw 1
        = s.deck.length + (s.discardPile.length - 1) := by
    intro havail hR
    have hd2 : 2 ≤ s.discardPile.length := by omega
    have hne : s.discardPile ≠ [] := by
      intro he
      rw [he] at hd2
      simp at hd2
    have hlast : ∃ last, s.discardPile.getLast? = some last := by
      cases hL : s.discardPile.getLast? with
      | none => exact absurd (getLast?_none_eq_nil hL) hne
      | some last => exact ⟨last, rfl⟩
    obtain ⟨last, hlast⟩ := hlast
    constructor
    · rw [handleCardDrawState_discardPile, if_pos hR, hlast]
      rfl
    · rw [handleCardDrawState_deck, List.length_drop]
      unfold drawSource
      rw [if_pos hR, List.length_append, shuffleArray_length,
        List.length_dropLast]
      omega
  rcases hforms with ⟨hpass, ht⟩ | ⟨hpass, ht⟩
  · refine ⟨pi, pl,
      { (drawUpd s (max s.pendingCardsToDraw 1) seeds pl) with
          isCurrentTurn := decide ((0 : Nat) + pi = getNextPlayerIndex
            (handleCardDrawState s pid (max s.pendingCardsToDraw 1) seeds pi)) },
      hfi, hget, ?_, ?_, ?_, ?_, ?_, ?_⟩
    · rw [ht, nextTurnPure_players_eq]
      unfold mapIdx0
      rw [get?_mapIdxFrom 0 _ pi, hnsget]
      rfl
    · rfl
    · intro havail
      exact hlenUpd havail
    · rw [ht, nextTurnPure_pending, handleCardDrawState_pending]
    · rw [ht, nextTurnPure_discardPile]
      exact hdiscTop
    · intro havail hR
      rw [ht]
      rw [show (nextTurnPure (handleCardDrawState s pid
          (max s.pendingCardsToDraw 1) seeds pi)).discardPile
        = (handleCardDrawState s pid (max s.pendingCardsToDraw 1)
            seeds pi).discardPile from rfl]
      rw [show (nextTurnPure (handleCardDrawState s pid
          (max s.pendingCardsToDraw 1) seeds pi)).deck
        = (handleCardDrawState s pid (max s.pendingCardsToDraw 1)
            seeds pi).deck from rfl]
      exact hreshuffle havail hR
  · refine ⟨pi, pl, drawUpd s (max s.pendingCardsToDraw 1) seeds pl,
      hfi, hget, ?_, rfl, ?_, ?_, ?_, ?_⟩
    · rw [ht]
      exact hnsget
    · intro havail
      exact hlenUpd havail
    · rw [ht, handleCardDrawState_pending]
    · rw [ht]
      exact hdiscTop
    · intro havail hR
      rw [ht]
      exact hreshuffle havail hR

/-- C8 counterexample: in state cw the draw pile is empty and the discard
pile holds a single card, so after the reshuffle drawCards has no card to
hand out; the call succeeds but adds 0 cards to the hand of player a
instead of the max(pendingCardsToDraw, 1) = 1 the claim requires. -/
theorem C8_counterexample :
    cw.gameStatus = GameStatus.playing
    ∧ (cw.players.headD default).id = "a"
    ∧ (cw.players.headD default).isCurrentTurn = true
    ∧ max cw.pendingCardsToDraw 1 = 1
    ∧ drawCards cw "a" [] = Except.ok (exOk (drawCards cw "a" []))
    ∧ ((exOk (drawCards cw "a" [])).players.headD default).id = "a"
    ∧ ((exOk (drawCards cw "a" [])).players.headD default).cards.length
        = (cw.players.headD default).cards.length := by
  decide

/-- Witness for C8: in the concrete playing state wP (93 deck cards, one
discard card, pendingCardsToDraw = 0) player a draws; the theorem applies
and every conclusion of the amended claim holds at this input. -/
theorem C8_drawCards_witness :
    ∃ pi pl pl2,
      wP.players.findIdx? (·.id = "a") = some pi
      ∧ wP.players.get? pi = some pl
      ∧ (exOk (drawCards wP "a" [])).players.get? pi = some pl2
      ∧ pl2.id = pl.id
      ∧ (max wP.pendingCardsToDraw 1
            ≤ wP.deck.length + (wP.discardPile.length - 1) →
          pl2.cards.length = pl.cards.length + max wP.pendingCardsToDraw 1)
      ∧ (exOk (drawCards wP "a" [])).pendingCardsToDraw = 0
      ∧ (exOk (drawCards wP "a" [])).discardPile.getLast?
          = wP.discardPile.getLast?
      ∧ (max wP.pendingCardsToDraw 1
            ≤ wP.deck.length + (wP.discardPile.length - 1) →
         wP.deck.length < max wP.pendingCardsToDraw 1 →
          (exOk (drawCards wP "a" [])).discardPile.length = 1
          ∧ (exOk (drawCards wP "a" [])).deck.length
              + max wP.pendingCardsToDraw 1
              = wP.deck.length + (wP.discardPile.length - 1)) :=
  C8_drawCards wP (exOk (drawCards wP "a" [])) "a" [] (by decide) (by decide)

def tpA : TestPlayer :=
  { id := "a", username := "alice", hand := [redReverseCard], isHost := true }

def tpB1 : TestPlayer :=
  { id := "b", username := "bob", hand := [redFiveCard], isHost := false }

def tpB2 : TestPlayer :=
  { id := "b", username := "bob", hand := [blueThreeCard], isHost := false }

def ts1 : TestGameState :=
  { roomCode := "r", players := [tpA, tpB1], currentPlayerIndex := 0,
    direction := 1, deck := [redFiveCard], discardPile := [redTwoCard],
    currentColor := CardColor.red, lastPlayedCard := some redTwoCard,
    gameStatus := GameStatus.playing }

def ts2 : TestGameState :=
  { roomCode := "r", players := [tpA, tpB2], currentPlayerIndex := 0,
    direction := 1, deck := [blueThreeCard], discardPile := [redTwoCard],
    currentColor := CardColor.red, lastPlayedCard := some redTwoCard,
    gameStatus := GameStatus.playing }

/-- Witness for C9: in the concrete state ts1 the recipient a sees only a
count for the other player b, and the two states ts1, ts2 that differ only
in the contents of b's hand and of the draw pile (same sizes) give a the
same public view. -/
theorem C9_redaction_witness :
    (∃ n, (⟨"b", "bob", HandView.count 1, false⟩ : PublicPlayer).hand
        = HandView.count n)
    ∧ getPublicGameState ts1 "a" = getPublicGameState ts2 "a" :=
  ⟨C9_redaction.1 ts1 "a" ⟨"b", "bob", HandView.count 1, false⟩
      (by decide) (by decide),
    C9_redaction.2 "a" ts1 ts2
      ⟨rfl, rfl, rfl, by decide, rfl, rfl, rfl, rfl,
        List.Forall₂.cons ⟨rfl, rfl, rfl, rfl, fun _ => rfl⟩
          (List.Forall₂.cons
            ⟨rfl, rfl, rfl, by decide, fun h => absurd h (by decide)⟩
            List.Forall₂.nil)⟩⟩

def f10 : GameState :=
  { players := [freshPlayer "a" "alice" true, freshPlayer "b" "bob" false,
      freshPlayer "c" "carol" false],
    currentPlayerIndex := 0, direction := 1, deck := [],
    discardPile := [redTwoCard], currentColor := CardColor.red,
    lastPlayedCard := some redTwoCard,
    gameStatus := GameStatus.finished, currentRound := 1,
    rounds := [{ roundNumber := 1, firstPlayer := "a" }],
    actionHistory := [], drawPileCount := 0, pendingCardsToDraw := 0,
    settings := getDefaultGameSettings }

/-- Witness for C10: in the concrete finished-game state f10 the host a is
removed entirely from the player list and the first remaining player b
becomes the host. -/
theorem C10_removePlayer_witness :
    (exOk (removePlayer f10 "a")).players.map (·.id)
        = (f10.players.filter (·.id ≠ "a")).map (·.id)
    ∧ "a" ∉ (exOk (removePlayer f10 "a")).players.map (·.id)
    ∧ (∀ pi, f10.players.findIdx? (·.id = "a") = some pi →
        ((f10.players.getD pi default).isHost = true →
          ∀ q qs, f10.players.filter (·.id ≠ "a") = q :: qs →
            (exOk (removePlayer f10 "a")).players
              = { q with isHost := true } :: qs)
        ∧ (¬ ((f10.players.getD pi default).isHost
              ∧ (f10.players.filter (·.id ≠ "a")).length > 0) →
            (exOk (removePlayer f10 "a")).players
              = f10.players.filter (·.id ≠ "a"))) :=
  C10_removePlayer f10 (exOk (removePlayer f10 "a")) "a"
    (by decide) (by decide)

theorem recordInsert_notmem {rec : List (String × Nat)} {k : String} (v : Nat)
    (h : ∀ e ∈ rec, e.1 ≠ k) : recordInsert rec k v = rec ++ [(k, v)] := by
  unfold recordInsert
  rw [if_neg]
  intro hany
  rw [List.any_eq_true] at hany
  obtain ⟨e, he, hek⟩ := hany
  exact h e he (of_decide_eq_true hek)

theorem foldl_recordInsert :
    ∀ (entries acc : List (String × Nat)),
      ((acc ++ entries).map (fun e => e.1)).Nodup →
      entries.foldl (fun r e => recordInsert r e.1 e.2) acc = acc ++ entries := by
  intro entries
  induction entries with
  | nil => intro acc h; simp
  | cons e rest ih =>
    intro acc h
    obtain ⟨k, v⟩ := e
    have hnot : ∀ x ∈ acc, x.1 ≠ k := by
      intro x hx hxk
      rw [List.map_append, List.nodup_append] at h
      exact h.2.2 (List.mem_map.mpr ⟨x, hx, rfl⟩)
        (by rw [hxk]; exact List.mem_cons_self _ _)
    simp only [List.foldl_cons]
    rw [recordInsert_notmem v hnot]
    have h2 : (((acc ++ [(k, v)]) ++ rest).map (fun e => e.1)).Nodup := by
      rw [List.append_assoc]
      exact h
    rw [ih (acc ++ [(k, v)]) h2, List.append_assoc]
    rfl

theorem buildRecord_eq_self {entries : List (String × Nat)}
    (h : (entries.map (fun e => e.1)).Nodup) : buildRecord entries = entries := by
  unfold buildRecord
  have := foldl_recordInsert entries [] (by simpa using h)
  simpa using this

theorem lookupRecord_self :
    ∀ {entries : List (String × Nat)} {k : String} {v : Nat},
      (entries.map (fun e => e.1)).Nodup → (k, v) ∈ entries →
      lookupRecord entries k = some v := by
  intro entries
  induction entries with
  | nil => intro k v _ hm; simp at hm
  | cons e rest ih =>
    intro k v hnd hm
    by_cases hek : e.1 = k
    · have hfind : (e :: rest).find? (fun x => decide (x.1 = k)) = some e :=
        List.find?_cons_of_pos _ (by simp [hek])
      rcases List.mem_cons.mp hm with heq | hmr
      · unfold lookupRecord
        rw [hfind, ← heq]
        rfl
      · exfalso
        have hkr : k ∈ rest.map (fun x => x.1) :=
          List.mem_map.mpr ⟨(k, v), hmr, rfl⟩
        simp only [List.map_cons, List.nodup_cons] at hnd
        exact hnd.1 (hek ▸ hkr)
    · have hfind : (e :: rest).find? (fun x => decide (x.1 = k))
          = rest.find? (fun x => decide (x.1 = k)) :=
        List.find?_cons_of_neg _ (by simp [hek])
      have hmr : (k, v) ∈ rest := by
        rcases List.mem_cons.mp hm with heq | hmr
        · exact absurd (by rw [← heq]) hek
        · exact hmr
      have hnd2 : (rest.map (fun e => e.1)).Nodup := by
        simp only [List.map_cons, List.nodup_cons] at hnd
        exact hnd.2
      unfold lookupRecord
      rw [hfind]
      exact ih hnd2 hmr

theorem mapIdx0_get?_at {α : Type} {f : Nat → α → α} {l : List α}
    {i : Nat} {x : α} (h : l.get? i = some x) :
    (mapIdx0 f l).get? i = some (f i x) := by
  unfold mapIdx0
  rw [get?_mapIdxFrom, h]
  simp only [Nat.zero_add]
  rfl

theorem filter_map_points_of_preserve {g : Player → Player} (pid : String)
    (hid : ∀ p, (g p).id = p.id) (hcards : ∀ p, (g p).cards = p.cards) :
    ∀ l : List Player,
      ((l.map g).filter (fun q => q.id ≠ pid)).map handPoints
        = (l.filter (fun q => q.id ≠ pid)).map handPoints := by
  intro l
  induction l with
  | nil => rfl
  | cons c t ih =>
    simp only [List.map_cons]
    by_cases hc : c.id = pid
    · rw [List.filter_cons_of_neg (by simp [hid, hc]),
        List.filter_cons_of_neg (by simp [hc])]
      exact ih
    · rw [List.filter_cons_of_pos (by simp [hid, hc]),
        List.filter_cons_of_pos (by simp [hc])]
      simp only [List.map_cons]
      rw [ih]
      have hg : handPoints (g c) = handPoints c := by
        unfold handPoints
        rw [hcards]
      rw [hg]

theorem sum_map_filter_of_zero (pid : String) :
    ∀ l : List Player, (∀ p ∈ l, p.id = pid → handPoints p = 0) →
      (l.map handPoints).sum
        = ((l.filter (fun q => q.id ≠ pid)).map handPoints).sum := by
  intro l
  induction l with
  | nil => intro _; rfl
  | cons c t ih =>
    intro h
    by_cases hc : c.id = pid
    · rw [List.filter_cons_of_neg (by simp [hc])]
      simp only [List.map_cons, List.sum_cons]
      rw [h c (List.mem_cons_self c t) hc,
        ih (fun p hp => h p (List.mem_cons_of_mem c hp))]
      simp
    · rw [List.filter_cons_of_pos (by simp [hc])]
      simp only [List.map_cons, List.sum_cons]
      rw [ih (fun p hp => h p (List.mem_cons_of_mem c hp))]

/-- Updated player list built by playCard before the win check (the same
mapIdx0 as in playRecord, spelled out for the win-branch inversion). -/
def winUp (s : GameState) (cid : Nat) (pi : Nat) (card : Card) : List Player :=
  mapIdx0
    (fun idx p =>
      if idx = pi then
        { p with
            cards := (s.players.getD pi default).cards.filter (·.id ≠ cid),
            hasCalledUno :=
              if ((s.players.getD pi default).cards.filter
                  (·.id ≠ cid)).length = 1 then
                (s.players.getD pi default).hasCalledUno
              else false,
            stats := { (s.players.getD pi default).stats with
              cardsPlayed :=
                (s.players.getD pi default).stats.cardsPlayed + 1,
              specialCardsPlayed :=
                (s.players.getD pi default).stats.specialCardsPlayed
                  + (if card.type ≠ CardType.number then 1 else 0) } }
      else p)
    s.players

/-- The roundScores record of the win branch of playCard. -/
def winScores (s : GameState) (cid : Nat) (pi : Nat) (card : Card) :
    List (String × Nat) :=
  buildRecord ((winUp s cid pi card).map (fun p => (p.id, handPoints p)))

/-- Final player list of the win branch of playCard: the winner gains the
sum of all recorded points, every loser records the negation of their own
points. -/
def winFinal (s : GameState) (pid : String) (cid : Nat) (pi : Nat)
    (card : Card) : List Player :=
  (winUp s cid pi card).map (fun p =>
    if p.id = pid then
      { p with
          score := p.score
            + ((((winScores s cid pi card).map (·.2)).sum : Nat) : Int),
          roundScore := ((((winScores s cid pi card).map (·.2)).sum : Nat) : Int),
          stats := { p.stats with
            gamesWon := p.stats.gamesWon + 1,
            totalScore := p.stats.totalScore
              + ((((winScores s cid pi card).map (·.2)).sum : Nat) : Int) } }
    else
      { p with
          roundScore :=
            -((((lookupRecord (winScores s cid pi card) p.id).getD 0 : Nat)) : Int),
          stats := { p.stats with
            totalScore := p.stats.totalScore
              - ((((lookupRecord (winScores s cid pi card) p.id).getD 0 : Nat)) : Int) } })

theorem playCardCore_win {s t : GameState} {pid : String} {cid : Nat}
    {col : Option CardColor} {pi : Nat} {card : Card}
    (h : playCardCore s pid cid col pi card = Except.ok t)
    (hlen : ((s.players.getD pi default).cards.filter (·.id ≠ cid)).length = 0) :
    t.gameStatus = GameStatus.finished
    ∧ t.players = winFinal s pid cid pi card
    ∧ t.winner = some ((winUp s cid pi card).getD pi default) := by
  unfold playCardCore at h
  simp only [] at h
  split at h
  · have ht := validateState_ok h
    subst ht
    exact ⟨rfl, rfl, rfl⟩
  · next hne => exact absurd hlen hne

/-- Element at the acting index of winUp. -/
def winnerElem (s : GameState) (cid : Nat) (pi : Nat) (card : Card) : Player :=
  { s.players.getD pi default with
      cards := (s.players.getD pi default).cards.filter (·.id ≠ cid),
      hasCalledUno :=
        if ((s.players.getD pi default).cards.filter
            (·.id ≠ cid)).length = 1 then
          (s.players.getD pi default).hasCalledUno
        else false,
      stats := { (s.players.getD pi default).stats with
        cardsPlayed := (s.players.getD pi default).stats.cardsPlayed + 1,
        specialCardsPlayed :=
          (s.players.getD pi default).stats.specialCardsPlayed
            + (if card.type ≠ CardType.number then 1 else 0) } }

theorem pid_update_win (p : Player) (sc r : Int) (st : PlayerStats) :
    ({ p with score := sc, roundScore := r, stats := st } : Player).id = p.id :=
  rfl

theorem pid_update_lose (p : Player) (r : Int) (st : PlayerStats) :
    ({ p with roundScore := r, stats := st } : Player).id = p.id := rfl

theorem score_update_win (p : Player) (sc r : Int) (st : PlayerStats) :
    ({ p with score := sc, roundScore := r, stats := st } : Player).score = sc :=
  rfl

theorem roundScore_update_lose (p : Player) (r : Int) (st : PlayerStats) :
    ({ p with roundScore := r, stats := st } : Player).roundScore = r := rfl

theorem handPoints_update_lose (p : Player) (r : Int) (st : PlayerStats) :
    handPoints ({ p with roundScore := r, stats := st }) = handPoints p := rfl

theorem winUp_ids (s : GameState) (cid : Nat) (pi : Nat) (card : Card) :
    (winUp s cid pi card).map (·.id) = s.players.map (·.id) := by
  unfold winUp mapIdx0
  apply mapIdxFrom_map_proj
  intro i a
  by_cases hi : i = pi
  · simp [hi]
  · simp [hi]

theorem winUp_get?_at {s : GameState} {cid : Nat} {pi : Nat} {card : Card}
    {pl : Player} (hget : s.players.get? pi = some pl) :
    (winUp s cid pi card).get? pi = some (winnerElem s cid pi card) := by
  unfold winUp
  rw [mapIdx0_get?_at hget]
  have hgetD : s.players.getD pi default = pl := getD_of_get? hget
  unfold winnerElem
  rw [hgetD]
  rw [if_pos rfl]

theorem winFinal_filter_points (s : GameState) (pid : String) (cid : Nat)
    (pi : Nat) (card : Card) :
    ((winFinal s pid cid pi card).filter (fun q => q.id ≠ pid)).map handPoints
      = ((winUp s cid pi card).filter (fun q => q.id ≠ pid)).map handPoints := by
  unfold winFinal
  apply filter_map_points_of_preserve
  · intro p
    by_cases hp : p.id = pid
    · simp [hp]
    · simp [hp]
  · intro p
    by_cases hp : p.id = pid
    · simp [hp]
    · simp [hp]

/-- C6: a successful playCard that removes the acting player's last card
finishes the game, sets the winner to that player, gives every opponent a
roundScore equal to the negation of their own remaining card points, and
raises the winner's score by the sum of all opponents' remaining points. -/
theorem C6_winScoring :
    ∀ (s t : GameState) (pid : String) (cid : Nat) (col : Option CardColor)
      (pi : Nat) (pl : Player),
    (s.players.map (·.id)).Nodup →
    s.players.findIdx? (·.id = pid) = some pi →
    s.players.get? pi = some pl →
    pl.cards.filter (·.id ≠ cid) = [] →
    playCard s pid cid col = Except.ok t →
    t.gameStatus = GameStatus.finished
    ∧ (∃ w, t.winner = some w ∧ w.id = pid)
    ∧ (∀ q ∈ t.players, q.id ≠ pid →
        q.roundScore = -((handPoints q : Nat) : Int))
    ∧ (∀ q ∈ t.players, q.id = pid →
        q.score = pl.score
          + ((((t.players.filter (fun q => q.id ≠ pid)).map
                handPoints).sum : Nat) : Int)) := by
  intro s t pid cid col pi pl hnd hfi hget hlast h
  obtain ⟨pi2, pl2, card, hfi2, hget2, hplid, hturn, hfind, hcore⟩ :=
    playCard_ok_shape h
  rw [hfi] at hfi2
  injection hfi2 with hpi
  subst hpi
  rw [hget] at hget2
  injection hget2 with hpl
  subst hpl
  have hgetD : s.players.getD pi default = pl := getD_of_get? hget
  have hlen0 :
      ((s.players.getD pi default).cards.filter (·.id ≠ cid)).length = 0 := by
    rw [hgetD, hlast]
    rfl
  obtain ⟨hfin, hplayers, hwin⟩ := playCardCore_win hcore hlen0
  have hupids : (winUp s cid pi card).map (·.id) = s.players.map (·.id) :=
    winUp_ids s cid pi card
  have hupnd : ((winUp s cid pi card).map (·.id)).Nodup := by
    rw [hupids]
    exact hnd
  have hupget : (winUp s cid pi card).get? pi
      = some (winnerElem s cid pi card) := winUp_get?_at hget
  have hwinid : (winnerElem s cid pi card).id = pid := by
    have h1 : (winnerElem s cid pi card).id
        = (s.players.getD pi default).id := rfl
    rw [h1, hgetD]
    exact hplid
  have hkeys : (((winUp s cid pi card).map
        (fun p => (p.id, handPoints p))).map (fun e => e.1))
      = (winUp s cid pi card).map (·.id) := by
    rw [List.map_map]
    rfl
  have hscores : winScores s cid pi card
      = (winUp s cid pi card).map (fun p => (p.id, handPoints p)) := by
    unfold winScores
    exact buildRecord_eq_self (by rw [hkeys]; exact hupnd)
  have hzero : ∀ p ∈ winUp s cid pi card, p.id = pid → handPoints p = 0 := by
    intro p hp hpidq
    have hpw : p = winnerElem s cid pi card :=
      List.inj_on_of_nodup_map hupnd hp (List.get?_mem hupget)
        (by rw [hpidq, hwinid])
    rw [hpw]
    have hcards : (winnerElem s cid pi card).cards = [] := by
      have h1 : (winnerElem s cid pi card).cards
          = (s.players.getD pi default).cards.filter (·.id ≠ cid) := rfl
      rw [h1, hgetD, hlast]
    unfold handPoints
    rw [hcards]
    rfl
  refine ⟨hfin, ⟨winnerElem s cid pi card, ?_, hwinid⟩, ?_, ?_⟩
  · rw [hwin, getD_of_get? hupget]
  · intro q hq hqid
    rw [hplayers] at hq
    unfold winFinal at hq
    obtain ⟨p, hp, hqp⟩ := List.mem_map.mp hq
    simp only [] at hqp
    by_cases hp2 : p.id = pid
    · rw [if_pos hp2] at hqp
      subst hqp
      rw [pid_update_win] at hqid
      exact absurd hp2 hqid
    · rw [if_neg hp2] at hqp
      subst hqp
      have hlook : lookupRecord (winScores s cid pi card) p.id
          = some (handPoints p) := by
        rw [hscores]
        exact lookupRecord_self (by rw [hkeys]; exact hupnd)
          (List.mem_map.mpr ⟨p, hp, rfl⟩)
      rw [roundScore_update_lose, handPoints_update_lose, hlook]
      rfl
  · intro q hq hqid
    rw [hplayers] at hq ⊢
    unfold winFinal at hq
    obtain ⟨p, hp, hqp⟩ := List.mem_map.mp hq
    simp only [] at hqp
    by_cases hp2 : p.id = pid
    · rw [if_pos hp2] at hqp
      subst hqp
      rw [winFinal_filter_points, score_update_win]
      have hpw : p = winnerElem s cid pi card :=
        List.inj_on_of_nodup_map hupnd hp (List.get?_mem hupget)
          (by rw [hp2, hwinid])
      have hscore : p.score = pl.score := by
        rw [hpw]
        have h1 : (winnerElem s cid pi card).score
            = (s.players.getD pi default).score := rfl
        rw [h1, hgetD]
      have hW : ((winScores s cid pi card).map (fun e => e.2)).sum
          = (((winUp s cid pi card).filter
              (fun q => q.id ≠ pid)).map handPoints).sum := by
        rw [hscores, List.map_map]
        have hcomp : ((fun e => e.2) ∘
            (fun p => (p.id, handPoints p)) : Player → Nat) = handPoints := rfl
        rw [hcomp]
        exact sum_map_filter_of_zero pid _ hzero
      rw [hscore, hW]
    · rw [if_neg hp2] at hqp
      subst hqp
      rw [pid_update_lose] at hqid
      exact absurd hqid hp2

/-- Last card of the winning player in the C6 witness scenario. -/
def redNineCard : Card :=
  { id := 300, color := CardColor.red, type := CardType.number,
    value := some 9, points := 9 }

/-- Two-player playing state where the player on turn holds one last card
that matches the discard top. -/
def cWin : GameState :=
  { players :=
      [ { (freshPlayer "a" "alice" true) with
            cards := [redNineCard],
            isCurrentTurn := true, isReady := true },
        { (freshPlayer "b" "bob" false) with
            cards := [blueThreeCard, redReverseCard],
            isReady := true } ],
    currentPlayerIndex := 0, direction := 1, deck := [],
    discardPile := [redTwoCard],
    currentColor := CardColor.red,
    lastPlayedCard := some redTwoCard,
    gameStatus := GameStatus.playing, currentRound := 1,
    rounds := [{ roundNumber := 1, firstPlayer := "a" }],
    actionHistory := [], drawPileCount := 0, pendingCardsToDraw := 0,
    settings := getDefaultGameSettings }

/-- Witness for C6: in cWin the player a plays their last card (a red 9);
the game finishes, a wins, b's roundScore is minus b's 23 remaining points
and a's score grows by those 23 points. -/
theorem C6_winScoring_witness :
    (exOk (playCard cWin "a" 300 none)).gameStatus = GameStatus.finished
    ∧ (∃ w, (exOk (playCard cWin "a" 300 none)).winner = some w ∧ w.id = "a")
    ∧ (∀ q ∈ (exOk (playCard cWin "a" 300 none)).players, q.id ≠ "a" →
        q.roundScore = -((handPoints q : Nat) : Int))
    ∧ (∀ q ∈ (exOk (playCard cWin "a" 300 none)).players, q.id = "a" →
        q.score = (cWin.players.getD 0 default).score
          + (((((exOk (playCard cWin "a" 300 none)).players.filter
                (fun q => q.id ≠ "a")).map handPoints).sum : Nat) : Int)) :=
  C6_winScoring cWin (exOk (playCard cWin "a" 300 none)) "a" 300 none 0
    (cWin.players.getD 0 default)
    (by decide) (by decide) (by decide) (by decide) (by decide)
